import Mathlib

/-!
# OpenRouter model comparison: catalog fetcher, model selector and prompt dispatcher

A shallow embedding of `src/script.js` (class `OpenRouterApp`).

* JavaScript strings are Lean `String`s; the string built-ins the code uses
  (`includes`, `startsWith`, `slice`, `split`, `trim`) are defined on the
  character lists.  `String.prototype.toLowerCase` is a built-in of the
  runtime: every definition that calls it takes it as the parameter
  `toLowerCase`.
* `this.selectedModels` is a JavaScript `Set`: a duplicate-free sequence in
  insertion order.  It is a `List String`; `setAdd` and `setDelete` are
  `Set.prototype.add` and `Set.prototype.delete`.  The functions do not
  require their input to be duplicate-free; separate lemmas show that they
  keep it so.
* The application object is the record `App`.  Writes to the page that the
  code never reads back (option rows, chips, counters) are not part of the
  record; the `disabled` flag of the send button and the error banner are.
* A method of the selector or of the catalog fetcher that can throw is a
  function to the state it leaves, whether it returns or throws: the fields
  of the object keep what was assigned before the throw.  The call that can
  throw there is the `querySelector` of `updateModelOptionState`, whose
  selector is built from the model identifier; whether the built-in rejects
  that selector is the parameter `selectorThrows`.
* A request method returns `Except`: the reply, or the message of what it
  throws.  Token counts are integers from 0 to 2^53 and their sum is rounded
  as a double.
-/

namespace OpenRouter

/-! ## Strings -/

/-- The method `String.prototype.includes`: `t` occurs in `s` as a contiguous run. -/
def includes (s t : String) : Bool :=
  s.data.tails.any (fun u => t.data.isPrefixOf u)

/-- The method `String.prototype.startsWith`. -/
def startsWith (s p : String) : Bool :=
  p.data.isPrefixOf s.data

/-- The method `String.prototype.slice` with one non-negative argument. -/
def slice (s : String) (n : Nat) : String :=
  ⟨s.data.drop n⟩

/-- White space and line terminators of ECMAScript, the characters `trim` strips. -/
def isJsWhiteSpace (c : Char) : Bool :=
  let n := c.toNat
  n == 0x09 || n == 0x0A || n == 0x0B || n == 0x0C || n == 0x0D || n == 0x20 ||
  n == 0xA0 || n == 0x1680 || (0x2000 ≤ n && n ≤ 0x200A) || n == 0x2028 ||
  n == 0x2029 || n == 0x202F || n == 0x205F || n == 0x3000 || n == 0xFEFF

/-- The method `String.prototype.trim`. -/
def trim (s : String) : String :=
  ⟨((s.data.dropWhile isJsWhiteSpace).reverse.dropWhile isJsWhiteSpace).reverse⟩

/-- Truthiness of a JavaScript string: every string but the empty one. -/
def truthy (s : String) : Bool :=
  !s.data.isEmpty

/-- The expression `a || b` where `a` is a string or `undefined` and `b` a string. -/
def orElse (a : Option String) (b : String) : String :=
  match a with
  | some s => if truthy s then s else b
  | none => b

/-! ## Data model -/

/-- A record of the catalog: `id` is required, `name` optional. -/
structure Model where
  id : String
  name : Option String := none
  deriving DecidableEq, Repr

/-- The fields of `OpenRouterApp` that the selector and the dispatcher read. -/
structure App where
  /-- The field `this.models`, the catalog. -/
  models : List Model := []
  /-- The field `this.selectedModels`, a `Set` in insertion order. -/
  selectedModels : List String := []
  /-- The field `this.filteredModels`. -/
  filteredModels : List Model := []
  /-- The field `this.isLoading`. -/
  isLoading : Bool := false
  /-- The value of `this.promptInput`. -/
  promptInput : String := ""
  /-- The flag `this.streamingCheckbox.checked`. -/
  streamingChecked : Bool := false
  /-- The flag `this.sendPromptBtn.disabled`. -/
  sendPromptDisabled : Bool := false
  /-- The value of `this.apiKeyInput`. -/
  apiKeyInput : String := ""
  /-- The field `this.apiKey`. -/
  apiKey : String := ""
  /-- The entry `openrouter_api_key` of `localStorage`. -/
  savedApiKey : Option String := none
  /-- The text of `this.errorMessage`. -/
  errorMessage : String := ""
  /-- Whether `this.errorMessage` has the class `hidden`. -/
  errorHidden : Bool := true
  deriving DecidableEq, Repr

/-- The method `Set.prototype.add`: a member is left where it is, a new element goes last. -/
def setAdd (s : List String) (x : String) : List String :=
  if x ∈ s then s else s ++ [x]

/-- The method `Set.prototype.delete`. -/
def setDelete (s : List String) (x : String) : List String :=
  s.filter (fun y => decide (y ≠ x))

/-! ## Model selector -/

/-- The method `getModelProvider(modelId)`. -/
def getModelProvider (modelId : String) : String :=
  if includes modelId "gpt" then "OpenAI"
  else if includes modelId "claude" then "Anthropic"
  else if includes modelId "gemini" then "Google"
  else if includes modelId "llama" then "Meta"
  else if includes modelId "mistral" then "Mistral"
  else if includes modelId "cohere" then "Cohere"
  else "Various"

/-- The method `updateSendButtonState()`. -/
def updateSendButtonState (a : App) : App :=
  let hasPrompt := decide ((trim a.promptInput).length > 0)
  let hasModels := decide (a.selectedModels.length > 0)
  { a with sendPromptDisabled := !hasPrompt || !hasModels || a.isLoading }

/-- The callback of `this.models.filter` in `filterModels`, for the lowered term. -/
def filterPredicate (toLowerCase : String → String) (term : String) (model : Model) : Bool :=
  let name := toLowerCase (orElse model.name model.id)
  let provider := toLowerCase (getModelProvider model.id)
  let id := toLowerCase model.id
  includes name term || includes provider term || includes id term

/-- The method `filterModels(searchTerm)`: the state it leaves. `renderFilteredModels`
is its last statement; it writes the page and can throw (see `renderFilteredModels`),
after the assignment, so the state is the same either way. -/
def filterModels (toLowerCase : String → String) (a : App) (searchTerm : String) : App :=
  if !truthy (trim searchTerm) then
    { a with filteredModels := a.models }
  else
    let term := toLowerCase searchTerm
    { a with filteredModels := a.models.filter (filterPredicate toLowerCase term) }

/-- The method `updateModelOptionState(modelId, selected)`: it writes the page only.
The value says whether the call throws: `querySelector` throws a `SyntaxError` when
the text built from `modelId`, an attribute selector with the identifier between
double quotes, is not a valid selector. -/
def updateModelOptionState (selectorThrows : String → Bool) (modelId : String) : Bool :=
  selectorThrows modelId

/-- The last statement of `renderFilteredModels()`, the `forEach` over the selection
that calls `updateModelOptionState`; the rest of the method writes the page. The
value says whether the method throws. -/
def renderFilteredModels (selectorThrows : String → Bool) (a : App) : Bool :=
  a.selectedModels.any (updateModelOptionState selectorThrows)

/-- The method `toggleModel(modelId, selected)`: the state it leaves. When
`updateModelOptionState` throws, the refreshes after it are not reached. -/
def toggleModel (selectorThrows : String → Bool) (a : App) (modelId : String)
    (selected : Bool) : App :=
  let a1 :=
    if selected then { a with selectedModels := setAdd a.selectedModels modelId }
    else { a with selectedModels := setDelete a.selectedModels modelId }
  if updateModelOptionState selectorThrows modelId then a1
  else updateSendButtonState a1

/-- The method `removeSelectedModel(modelId)`. -/
def removeSelectedModel (selectorThrows : String → Bool) (a : App) (modelId : String) :
    App :=
  toggleModel selectorThrows a modelId false

/-- The `forEach` of `selectAllModels()` over what is left of the filtered view: each
identifier is added, then its option row is marked. The loop ends with the view, or
at the first `updateModelOptionState` that throws. The value is the selection it
leaves and whether it threw. -/
def selectAllLoop (selectorThrows : String → Bool) :
    List Model → List String → List String × Bool
  | [], s => (s, false)
  | model :: rest, s =>
    if updateModelOptionState selectorThrows model.id then (setAdd s model.id, true)
    else selectAllLoop selectorThrows rest (setAdd s model.id)

/-- The method `selectAllModels()`: the state it leaves. When the `forEach` throws,
the refreshes after it are not reached. -/
def selectAllModels (selectorThrows : String → Bool) (a : App) : App :=
  let run := selectAllLoop selectorThrows a.filteredModels a.selectedModels
  if run.2 then { a with selectedModels := run.1 }
  else updateSendButtonState { a with selectedModels := run.1 }

/-- The `forEach` of `clearAllModels()` over what is left of the filtered view: each
identifier is deleted, then its option row is unmarked. The value is the selection
it leaves and whether it threw. -/
def clearAllLoop (selectorThrows : String → Bool) :
    List Model → List String → List String × Bool
  | [], s => (s, false)
  | model :: rest, s =>
    if updateModelOptionState selectorThrows model.id then (setDelete s model.id, true)
    else clearAllLoop selectorThrows rest (setDelete s model.id)

/-- The method `clearAllModels()`: the state it leaves. When the `forEach` throws,
the refreshes after it are not reached. -/
def clearAllModels (selectorThrows : String → Bool) (a : App) : App :=
  let run := clearAllLoop selectorThrows a.filteredModels a.selectedModels
  if run.2 then { a with selectedModels := run.1 }
  else updateSendButtonState { a with selectedModels := run.1 }

/-- The method `setLoading(loading)`. -/
def setLoading (a : App) (loading : Bool) : App :=
  updateSendButtonState { a with isLoading := loading }

/-- The handler of the `input` event of the prompt box, after the box took `value`. -/
def promptInputEvent (a : App) (value : String) : App :=
  updateSendButtonState { a with promptInput := value }

/-! ## Model catalog fetcher -/

/-- What `fetch` and the reads of the response give `loadModels`. -/
inductive CatalogFetch where
  /-- The call `fetch` rejects: a transport error. -/
  | rejected (message : String)
  /-- A response with `ok` false and this status. -/
  | notOk (status : Nat)
  /-- A response with `ok` true; `response.json()` throws, or returns an object whose
  `data` is the list of records (`none` when `data.data` is absent). -/
  | ok (json : Except String (Option (List Model)))

/-- The method `showError(message)`; the timer that hides the banner later is not run. -/
def showError (a : App) (message : String) : App :=
  { a with errorMessage := message, errorHidden := false }

/-- The method `hideError()`. -/
def hideError (a : App) : App :=
  { a with errorHidden := true }

/-- The method `renderModels()`: the state it leaves and whether it throws. On an
empty catalog it returns before the filtered view is assigned. -/
def renderModels (selectorThrows : String → Bool) (a : App) : App × Bool :=
  if a.models.length = 0 then (a, false)
  else
    ({ a with filteredModels := a.models },
      renderFilteredModels selectorThrows { a with filteredModels := a.models })

/-- The method `loadModels()` over the network `fetch`, which is given the API key.
What `renderModels` throws is caught like a failed fetch. -/
def loadModels (selectorThrows : String → Bool) (fetch : String → CatalogFetch)
    (a : App) : App :=
  let apiKey := trim a.apiKeyInput
  if !truthy apiKey then
    showError a "Please enter your OpenRouter API key"
  else
    let a1 := setLoading { a with apiKey := apiKey, savedApiKey := some apiKey } true
    let failed := "Failed to load models. Please check your API key and try again."
    let a2 :=
      match fetch apiKey with
      | .ok (.ok data) =>
        let rendered := renderModels selectorThrows { a1 with models := data.getD [] }
        if rendered.2 then showError rendered.1 failed else hideError rendered.1
      | _ => showError a1 failed
    setLoading a2 false

/-- The built-in `querySelector` on the identifiers of the examples below: it rejects
the selector built from the identifier `a"b`, in which the quote ends the string
early, and accepts the selectors built from the other identifiers of the examples. -/
def sampleSelectorThrows (modelId : String) : Bool :=
  decide (modelId = "a\"b")

/-- ASCII lower-casing, the restriction of `toLowerCase` to ASCII text. -/
def asciiLower (s : String) : String :=
  ⟨s.data.map Char.toLower⟩

/-! ## The search filter as the specification words it -/

/-- The display name of a catalog entry: its name, or its identifier when the name is absent. -/
def displayName (m : Model) : String :=
  m.name.getD m.id

/-- Case-insensitive containment: the lowered text contains the lowered term. -/
def containsIgnoreCase (toLowerCase : String → String) (s t : String) : Bool :=
  includes (toLowerCase s) (toLowerCase t)

/-- An entry matches a term when its identifier, display name or provider label contains it. -/
def matchesTerm (toLowerCase : String → String) (t : String) (m : Model) : Bool :=
  containsIgnoreCase toLowerCase m.id t ||
  containsIgnoreCase toLowerCase (displayName m) t ||
  containsIgnoreCase toLowerCase (getModelProvider m.id) t

/-! ## Prompt dispatcher: data -/

/-- What a request method returns: the object `{ content, tokensUsed }`. -/
structure Reply where
  content : String
  tokensUsed : Nat
  deriving DecidableEq, Repr

deriving instance DecidableEq for Except

/-- An entry of `responses`: `responseData` (`success: true`) or `errorData`
(`success: false`); a field the object literal does not set is `none`. -/
structure ResponseData where
  modelId : String
  success : Bool
  content : Option String := none
  error : Option String := none
  duration : Int
  tokensUsed : Option Nat := none
  deriving DecidableEq, Repr

/-- The `message` object of a choice. -/
structure Message where
  content : Option String := none
  deriving DecidableEq, Repr

/-- An element of `data.choices` of a non-streaming response. -/
structure Choice where
  message : Option Message := none
  text : Option String := none
  deriving DecidableEq, Repr

/-- The `usage` object. A token count is an integer from 0 to 2^53, the range in
which every integer is a double; an absent field is `none`. -/
structure Usage where
  total_tokens : Option Nat := none
  prompt_tokens : Option Nat := none
  completion_tokens : Option Nat := none
  deriving DecidableEq, Repr

/-- The body of a non-streaming response after `response.json()`, when it is not
`null`. An element of `choices` that is `null` is `none`. -/
structure CompletionData where
  choices : Option (List (Option Choice)) := none
  usage : Option Usage := none
  deriving DecidableEq, Repr

/-- What `fetch` and the reads of the response give `sendRegularRequest`. -/
inductive RegularFetch where
  /-- The call `fetch` rejects with an error of this message. -/
  | rejected (message : String)
  /-- A response with `ok` false; `errorData` is `errorData.error?.message` when
  `response.json()` returns, `none` when it throws. -/
  | notOk (status : Nat) (statusText : String) (errorData : Option (Option String))
  /-- A response with `ok` true; `response.json()` throws, or returns the data, which
  is `none` when the body is the JSON value `null`. -/
  | ok (json : Except String (Option CompletionData))

/-- The `delta` object of a streamed choice. -/
structure Delta where
  content : Option String := none
  deriving DecidableEq, Repr

/-- An element of `parsed.choices` of a streamed frame. -/
structure StreamChoice where
  delta : Option Delta := none
  deriving DecidableEq, Repr

/-- The value `JSON.parse` returns for a frame, as far as the loop reads it. `choices`
is `none` when the value has no `choices` to index, so that `parsed.choices[0]`
throws. -/
structure StreamPayload where
  choices : Option (List StreamChoice) := none
  usage : Option Usage := none
  deriving DecidableEq, Repr

/-- What `fetch` and the reader give `sendStreamingRequest`. -/
inductive StreamFetch where
  /-- The call `fetch` rejects with an error of this message. -/
  | rejected (message : String)
  /-- A response with `ok` false; `errorData` is `errorData.error?.message` when
  `response.json()` returns, `none` when it throws (the `catch` gives `{}`). -/
  | notOk (status : Nat) (errorData : Option (Option String))
  /-- A response with `ok` true: the decoded chunks the reader delivers, in order, and
  then either `done` (`readError = none`) or a read that rejects. -/
  | ok (chunks : List String) (readError : Option String)

/-- The local variables of the read loop, with the arguments of the calls of
`updateStreamingContent` so far, in call order. -/
structure StreamState where
  content : String := ""
  tokensUsed : Nat := 0
  updates : List String := []
  deriving DecidableEq, Repr

/-! ## Prompt dispatcher: the non-streaming request -/

/-- The expression `a || b` where `a` is a number, `undefined` or `NaN` and `b` a number. -/
def orNum (a : Option Nat) (b : Nat) : Nat :=
  match a with
  | some n => if n ≠ 0 then n else b
  | none => b

/-- The double nearest to the integer `n`, for `n` up to 2^54: every integer up to
2^53 is a double, above it every even one is, and an odd one lies half-way between
two doubles and goes to the one with the even significand. -/
def roundDouble (n : Nat) : Nat :=
  if n ≤ 2 ^ 53 then n
  else if n % 2 = 0 then n
  else if (n / 2) % 2 = 0 then n - 1
  else n + 1

/-- The expression `a + b` on numbers: the sum of two token counts as a double; with
an `undefined` operand the sum is `NaN`. -/
def addNum (a b : Option Nat) : Option Nat :=
  match a, b with
  | some x, some y => some (roundDouble (x + y))
  | _, _ => none

/-- The message of the `TypeError` thrown by the read of `property` on `null`, as V8
words it; other engines word it otherwise. -/
def nullReadMessage (property : String) : String :=
  "Cannot read properties of null (reading \x27" ++ property ++ "\x27)"

/-- The method `sendRegularRequest(modelId, prompt)` over the network `fetch`. The
read `data.choices` throws on a `null` body and the read `choice.message` throws on a
`null` first choice. -/
def sendRegularRequest (fetch : String → String → RegularFetch) (modelId prompt : String) :
    Except String Reply :=
  match fetch modelId prompt with
  | .rejected message => .error message
  | .notOk status statusText errorData =>
    let fallback := "HTTP " ++ toString status ++ ": " ++ statusText
    match errorData with
    | some message => .error (orElse message fallback)
    | none => .error fallback
  | .ok (.error message) => .error message
  | .ok (.ok none) => .error (nullReadMessage "choices")
  | .ok (.ok (some data)) =>
    let tokensUsed :=
      match data.usage with
      | some usage =>
        orNum usage.total_tokens
          (orNum (addNum usage.prompt_tokens usage.completion_tokens) 0)
      | none => 0
    match data.choices with
    | some (none :: _) => .error (nullReadMessage "message")
    | some (some choice :: _) =>
      .ok { content :=
              orElse (choice.message.bind (fun m => m.content))
                (orElse choice.text "No content in response"),
            tokensUsed := tokensUsed }
    | _ => .ok { content := "No response generated", tokensUsed := tokensUsed }

/-! ## Prompt dispatcher: the streaming request -/

/-- The helper for `split`: the runs between the occurrences of `sep`. -/
def splitChars (sep : Char) : List Char → List (List Char)
  | [] => [[]]
  | c :: cs =>
    if c = sep then [] :: splitChars sep cs
    else
      match splitChars sep cs with
      | [] => [[c]]
      | l :: ls => (c :: l) :: ls

/-- The method `String.prototype.split` with a one-character separator. -/
def split (s : String) (sep : Char) : List String :=
  (splitChars sep s.data).map String.mk

/-- The body of `for (const line of lines)`: one line of a chunk. -/
def processLine (jsonParse : String → Option StreamPayload) (st : StreamState)
    (line : String) : StreamState :=
  if startsWith line "data: " then
    let data := slice line 6
    if data = "[DONE]" then st
    else
      match jsonParse data with
      | none => st
      | some parsed =>
        match parsed.choices with
        | none => st
        | some choices =>
          let delta := (choices.head?.bind (fun c => c.delta)).bind (fun d => d.content)
          let st1 :=
            match delta with
            | some d =>
              if truthy d then
                { st with content := st.content ++ d, updates := st.updates ++ [st.content ++ d] }
              else st
            | none => st
          match parsed.usage.bind (fun u => u.total_tokens) with
          | some t => if t ≠ 0 then { st1 with tokensUsed := t } else st1
          | none => st1
  else st

/-- The body of the `while` loop for one chunk: split into lines, then each line. -/
def processChunk (jsonParse : String → Option StreamPayload) (st : StreamState)
    (chunk : String) : StreamState :=
  (split chunk '\n').foldl (processLine jsonParse) st

/-- The `while (true)` loop over the chunks the reader delivers. -/
def readStream (jsonParse : String → Option StreamPayload) (chunks : List String) :
    StreamState :=
  chunks.foldl (processChunk jsonParse) {}

/-- The method `sendStreamingRequest(modelId, prompt)` over the network `fetch` and the
built-in `JSON.parse`: what it returns or throws, and the arguments of its calls of
`updateStreamingContent`, in call order. -/
def sendStreamingRequest (fetch : String → String → StreamFetch)
    (jsonParse : String → Option StreamPayload) (modelId prompt : String) :
    Except String Reply × List String :=
  match fetch modelId prompt with
  | .rejected message => (.error message, [])
  | .notOk status errorData =>
    let fallback := "HTTP " ++ toString status
    match errorData with
    | some message => (.error (orElse message fallback), [])
    | none => (.error fallback, [])
  | .ok chunks readError =>
    let st := readStream jsonParse chunks
    match readError with
    | some message => (.error message, st.updates)
    | none =>
      (.ok { content := orElse (some st.content) "No response generated",
             tokensUsed := st.tokensUsed }, st.updates)

/-! ## Prompt dispatcher: one request per selected model -/

/-- The async callback of `modelArray.map` in `processModels`, from its start to the
`return`: the entry it pushes to `responses`. `startTime` and `endTime` are the two
readings of `Date.now()`. -/
def settle (request : String → Except String Reply) (startTime endTime : String → Int)
    (modelId : String) : ResponseData :=
  match request modelId with
  | .ok response =>
    { modelId := modelId, success := true, content := some response.content,
      duration := endTime modelId - startTime modelId,
      tokensUsed := some response.tokensUsed }
  | .error message =>
    { modelId := modelId, success := false, error := some message, duration := 0 }

/-- The entries of `responses` in the order the requests settle. The requests run
concurrently; `schedule` names, at each step, which of the pending requests settles
next (its position among the pending ones, modulo their number); when the schedule
is used up the rest settle in array order. -/
def settleAll (f : String → ResponseData) : List Nat → List String → List ResponseData
  | _, [] => []
  | [], pending => pending.map f
  | k :: ks, p :: ps =>
    let i := k % (ps.length + 1)
    f ((p :: ps).getD i p) :: settleAll f ks ((p :: ps).eraseIdx i)

/-- The method `processModels(prompt)`: the list `responses` it returns, once
`Promise.allSettled` has seen every request settle. -/
def processModels (a : App) (prompt : String)
    (sendStreamingRequest sendRegularRequest : String → String → Except String Reply)
    (startTime endTime : String → Int) (schedule : List Nat) : List ResponseData :=
  let isStreaming := a.streamingChecked
  let modelArray := a.selectedModels
  settleAll
    (settle
      (fun modelId =>
        if isStreaming then sendStreamingRequest modelId prompt
        else sendRegularRequest modelId prompt)
      startTime endTime)
    schedule modelArray

/-! ## Streamed frames as the specification words them -/

/-- The body made of the frames `data: <payload>` followed by a newline, one per payload. -/
def sseBody : List String → String
  | [] => ""
  | p :: ps => "data: " ++ p ++ "\n" ++ sseBody ps

/-- The delta content a frame carries: the payload parses as JSON and its
`choices[0].delta.content` is a non-empty string. -/
def frameDelta (jsonParse : String → Option StreamPayload) (payload : String) :
    Option String :=
  match jsonParse payload with
  | none => none
  | some parsed =>
    match parsed.choices with
    | none => none
    | some choices =>
      match (choices.head?.bind (fun c => c.delta)).bind (fun d => d.content) with
      | some d => if truthy d then some d else none
      | none => none

/-- The payload of a frame that carries the delta content `text` and nothing else. -/
def deltaFrame (text : String) : String :=
  "\x7b\"choices\":[\x7b\"delta\":\x7b\"content\":\"" ++ text ++ "\"\x7d\x7d]\x7d"

/-- The payload of a frame that carries no choice and the usage total 7. -/
def usageFrame : String :=
  "\x7b\"choices\":[],\"usage\":\x7b\"total_tokens\":7\x7d\x7d"

/-- The payload of a frame that carries no choice and the usage total 0. -/
def usageZeroFrame : String :=
  "\x7b\"choices\":[],\"usage\":\x7b\"total_tokens\":0\x7d\x7d"

/-- The payload of a frame that has no `choices` field and carries the usage total 9. -/
def usageOnlyFrame : String :=
  "\x7b\"usage\":\x7b\"total_tokens\":9\x7d\x7d"

/-- The built-in `JSON.parse` on the payloads of the examples below: the frames that
carry the delta `Hel`, `lo`, `a` or `b`, and the frames that carry a usage total; any
other payload of the examples (`[DONE]`, `oops`, the empty payload, a piece of a
frame) is not JSON. -/
def sampleParse (payload : String) : Option StreamPayload :=
  if payload = deltaFrame "Hel" then
    some { choices := some [{ delta := some { content := some "Hel" } }] }
  else if payload = deltaFrame "lo" then
    some { choices := some [{ delta := some { content := some "lo" } }] }
  else if payload = deltaFrame "a" then
    some { choices := some [{ delta := some { content := some "a" } }] }
  else if payload = deltaFrame "b" then
    some { choices := some [{ delta := some { content := some "b" } }] }
  else if payload = usageFrame then
    some { choices := some [], usage := some { total_tokens := some 7 } }
  else if payload = usageZeroFrame then
    some { choices := some [], usage := some { total_tokens := some 0 } }
  else if payload = usageOnlyFrame then
    some { usage := some { total_tokens := some 9 } }
  else none

/-- A usage that reports the total 0 beside `prompt_tokens = 10`, `completion_tokens = 5`. -/
def usageZeroTotal : Usage :=
  { total_tokens := some 0, prompt_tokens := some 10, completion_tokens := some 5 }

/-- A usage without total, with `prompt_tokens = 10` and `completion_tokens = 5`. -/
def usageNoTotal : Usage :=
  { prompt_tokens := some 10, completion_tokens := some 5 }

/-- A usage without total, with `prompt_tokens = 2^53` and `completion_tokens = 1`. -/
def usageLargeCounts : Usage :=
  { prompt_tokens := some 9007199254740992, completion_tokens := some 1 }

/-- A choice whose `message.content` is `hi`. -/
def sampleChoice : Choice :=
  { message := some { content := some "hi" } }

/-- A choice whose `message.content` is the empty string and whose `text` is `t`. -/
def choiceEmptyContent : Choice :=
  { message := some { content := some "" }, text := some "t" }

/-- The usage total a frame carries: the payload parses as JSON and has a
`usage.total_tokens`. -/
def frameUsage (jsonParse : String → Option StreamPayload) (payload : String) :
    Option Nat :=
  match jsonParse payload with
  | none => none
  | some parsed => parsed.usage.bind (fun u => u.total_tokens)

/-- The rule of the send button: it is disabled exactly when the trimmed prompt is
empty, or the selection is empty, or a load or dispatch is in progress. -/
def sendButtonRule (a : App) : Prop :=
  a.sendPromptDisabled = true ↔
    (trim a.promptInput = "" ∨ a.selectedModels = [] ∨ a.isLoading = true)

/-- The content accumulated so far after each of the deltas, starting from `acc`. -/
def accumulated : String → List String → List String
  | _, [] => []
  | acc, d :: ds => (acc ++ d) :: accumulated (acc ++ d) ds

/-! ## Lemmas on strings and on the selection set -/

theorem includes_empty_right (s : String) : includes s "" = true := by
  unfold includes
  cases h : s.data with
  | nil => simp
  | cons c cs => simp

theorem includes_empty_left (u : String) : includes "" u = true ↔ u.data = [] := by
  unfold includes
  cases h : u.data with
  | nil => simp
  | cons c cs => simp

theorem eq_empty_of_not_truthy (s : String) (h : truthy s = false) : s = "" := by
  cases s with
  | mk l =>
    cases l with
    | nil => rfl
    | cons c cs => simp [truthy] at h

theorem mem_setAdd (s : List String) (x y : String) : y ∈ setAdd s x ↔ y ∈ s ∨ y = x := by
  unfold setAdd
  by_cases hx : x ∈ s
  · simp only [hx, if_true]
    constructor
    · exact Or.inl
    · rintro (h | h)
      · exact h
      · exact h ▸ hx
  · simp [hx]

theorem mem_setDelete (s : List String) (x y : String) : y ∈ setDelete s x ↔ y ∈ s ∧ y ≠ x := by
  simp [setDelete]

theorem nodup_setAdd (s : List String) (x : String) (h : s.Nodup) : (setAdd s x).Nodup := by
  unfold setAdd
  by_cases hx : x ∈ s
  · simpa [hx] using h
  · simp only [hx, if_false]
    refine List.Nodup.append h (List.nodup_singleton x) ?_
    intro y hy hy1
    simp only [List.mem_singleton] at hy1
    exact hx (hy1 ▸ hy)

theorem nodup_setDelete (s : List String) (x : String) (h : s.Nodup) : (setDelete s x).Nodup :=
  h.filter _

theorem setDelete_of_not_mem (s : List String) (x : String) (h : x ∉ s) : setDelete s x = s := by
  unfold setDelete
  rw [List.filter_eq_self]
  intro y hy
  simp only [ne_eq, decide_eq_true_eq]
  intro hyx
  exact h (hyx ▸ hy)

theorem setDelete_setAdd_of_not_mem (s : List String) (x : String) (h : x ∉ s) :
    setDelete (setAdd s x) x = s := by
  unfold setAdd
  simp only [h, if_false]
  unfold setDelete
  rw [List.filter_append]
  have := setDelete_of_not_mem s x h
  unfold setDelete at this
  rw [this]
  simp

theorem mem_foldl_setAdd (v : List Model) (s : List String) (y : String) :
    y ∈ v.foldl (fun s model => setAdd s model.id) s ↔ y ∈ s ∨ y ∈ v.map Model.id := by
  induction v generalizing s with
  | nil => simp
  | cons m ms ih =>
    simp only [List.foldl_cons, List.map_cons, List.mem_cons]
    rw [ih, mem_setAdd]
    tauto

theorem mem_foldl_setDelete (v : List Model) (s : List String) (y : String) :
    y ∈ v.foldl (fun s model => setDelete s model.id) s ↔ y ∈ s ∧ y ∉ v.map Model.id := by
  induction v generalizing s with
  | nil => simp
  | cons m ms ih =>
    simp only [List.foldl_cons, List.map_cons, List.mem_cons]
    rw [ih, mem_setDelete]
    tauto

theorem filterPredicate_eq_matchesTerm (toLowerCase : String → String)
    (h0 : toLowerCase "" = "") (t : String) (m : Model) :
    filterPredicate toLowerCase (toLowerCase t) m = matchesTerm toLowerCase t m := by
  unfold filterPredicate matchesTerm containsIgnoreCase displayName
  cases hn : m.name with
  | none =>
    simp only [orElse, Option.getD_none]
    cases includes (toLowerCase m.id) (toLowerCase t) <;>
      cases includes (toLowerCase (getModelProvider m.id)) (toLowerCase t) <;> rfl
  | some n =>
    simp only [orElse, Option.getD_some]
    cases ht : truthy n with
    | true =>
      simp only [if_true]
      cases includes (toLowerCase m.id) (toLowerCase t) <;>
        cases includes (toLowerCase (getModelProvider m.id)) (toLowerCase t) <;>
        cases includes (toLowerCase n) (toLowerCase t) <;> rfl
    | false =>
      have hn0 : n = "" := eq_empty_of_not_truthy n ht
      subst hn0
      simp only [Bool.false_eq_true, if_false, h0]
      cases hu : (toLowerCase t).data with
      | nil =>
        have hu0 : toLowerCase t = "" := by
          cases hq : toLowerCase t with
          | mk l => rw [hq] at hu; simp at hu; subst hu; rfl
        rw [hu0]
        simp [includes_empty_right]
      | cons c cs =>
        have hne : includes "" (toLowerCase t) = false := by
          cases hq : includes "" (toLowerCase t) with
          | false => rfl
          | true => rw [includes_empty_left, hu] at hq; simp at hq
        rw [hne]
        cases includes (toLowerCase m.id) (toLowerCase t) <;>
          cases includes (toLowerCase (getModelProvider m.id)) (toLowerCase t) <;> rfl

/-! ## Model selector: the search filter -/

/-- C1, as the claim states it, fails: for the one-entry catalog `gpt-4` and the
search term `" "` (one space) `filterModels` shows the whole catalog, yet no
identifier, display name or provider label of that entry contains a space. -/
theorem filterModels_blank_term_counterexample :
    (filterModels asciiLower { models := [{ id := "gpt-4" }] } " ").filteredModels
      ≠ [({ id := "gpt-4" } : Model)].filter (matchesTerm asciiLower " ")
    ∧ (filterModels asciiLower { models := [{ id := "gpt-4" }] } " ").filteredModels
      = [{ id := "gpt-4" }]
    ∧ [({ id := "gpt-4" } : Model)].filter (matchesTerm asciiLower " ") = [] := by
  decide

/-- C1 (amended): for a search term that is not blank (its `trim` is non-empty),
`filterModels` sets the filtered view to exactly the catalog entries, in catalog
order, whose identifier, display name or provider label contains the term
case-insensitively; for a blank term (empty or white space only, so for `""`) the
filtered view is the whole catalog in its original order. -/
theorem filterModels_filteredView (toLowerCase : String → String)
    (h0 : toLowerCase "" = "") (a : App) (t : String) :
    (truthy (trim t) = true →
      (filterModels toLowerCase a t).filteredModels
        = a.models.filter (matchesTerm toLowerCase t))
    ∧ (truthy (trim t) = false → (filterModels toLowerCase a t).filteredModels = a.models)
    ∧ (filterModels toLowerCase a "").filteredModels = a.models := by
  refine ⟨?_, ?_, ?_⟩
  · intro ht
    simp only [filterModels, ht, Bool.not_true, Bool.false_eq_true, if_false]
    apply List.filter_congr
    intro m _
    exact filterPredicate_eq_matchesTerm toLowerCase h0 t m
  · intro ht
    simp [filterModels, ht]
  · rfl

/-- The amended C1 at the catalog `gpt-4`, `claude-3` (named `Sonnet`) and the terms
`"GPT"`, `"sonn"` and `" "`. -/
theorem filterModels_filteredView_witness :
    (filterModels asciiLower
        { models := [{ id := "gpt-4" }, { id := "claude-3", name := some "Sonnet" }] }
        "sonn").filteredModels
      = [{ id := "claude-3", name := some "Sonnet" }]
    ∧ (filterModels asciiLower
        { models := [{ id := "gpt-4" }, { id := "claude-3", name := some "Sonnet" }] }
        " ").filteredModels
      = [{ id := "gpt-4" }, { id := "claude-3", name := some "Sonnet" }] :=
  ⟨((filterModels_filteredView asciiLower (by decide)
        { models := [{ id := "gpt-4" }, { id := "claude-3", name := some "Sonnet" }] }
        "sonn").1 (by decide)).trans (by decide),
   (filterModels_filteredView asciiLower (by decide)
        { models := [{ id := "gpt-4" }, { id := "claude-3", name := some "Sonnet" }] }
        " ").2.1 (by decide)⟩

/-! ## Model selector: select all, clear all, toggle -/

theorem updateSendButtonState_selectedModels (a : App) :
    (updateSendButtonState a).selectedModels = a.selectedModels := rfl

theorem selectAllLoop_of_valid (selectorThrows : String → Bool) (v : List Model)
    (s : List String) (hvalid : ∀ m ∈ v, selectorThrows m.id = false) :
    selectAllLoop selectorThrows v s = (v.foldl (fun s model => setAdd s model.id) s, false) := by
  induction v generalizing s with
  | nil => rfl
  | cons m ms ih =>
    have hm : selectorThrows m.id = false := hvalid m (List.mem_cons_self m ms)
    simp only [selectAllLoop, updateModelOptionState, hm, Bool.false_eq_true, if_false,
      List.foldl_cons]
    exact ih _ (fun q hq => hvalid q (List.mem_cons_of_mem m hq))

theorem clearAllLoop_of_valid (selectorThrows : String → Bool) (v : List Model)
    (s : List String) (hvalid : ∀ m ∈ v, selectorThrows m.id = false) :
    clearAllLoop selectorThrows v s
      = (v.foldl (fun s model => setDelete s model.id) s, false) := by
  induction v generalizing s with
  | nil => rfl
  | cons m ms ih =>
    have hm : selectorThrows m.id = false := hvalid m (List.mem_cons_self m ms)
    simp only [clearAllLoop, updateModelOptionState, hm, Bool.false_eq_true, if_false,
      List.foldl_cons]
    exact ih _ (fun q hq => hvalid q (List.mem_cons_of_mem m hq))

theorem selectAllModels_selectedModels (selectorThrows : String → Bool) (a : App) :
    (selectAllModels selectorThrows a).selectedModels
      = (selectAllLoop selectorThrows a.filteredModels a.selectedModels).1 := by
  unfold selectAllModels
  simp only []
  split <;> rfl

theorem clearAllModels_selectedModels (selectorThrows : String → Bool) (a : App) :
    (clearAllModels selectorThrows a).selectedModels
      = (clearAllLoop selectorThrows a.filteredModels a.selectedModels).1 := by
  unfold clearAllModels
  simp only []
  split <;> rfl

theorem toggleModel_selectedModels (selectorThrows : String → Bool) (a : App)
    (modelId : String) (selected : Bool) :
    (toggleModel selectorThrows a modelId selected).selectedModels
      = if selected then setAdd a.selectedModels modelId
        else setDelete a.selectedModels modelId := by
  unfold toggleModel
  cases selected <;> simp only [] <;> split <;> rfl

/-- When `querySelector` accepts the selector of every identifier of the filtered
view, `selectAllModels()` leaves the selection equal to the old selection united with
the identifiers of the view; with an empty view the selection is unchanged. -/
theorem selectAllModels_selection (selectorThrows : String → Bool) (a : App)
    (hvalid : ∀ m ∈ a.filteredModels, selectorThrows m.id = false) :
    (∀ x, x ∈ (selectAllModels selectorThrows a).selectedModels ↔
        x ∈ a.selectedModels ∨ x ∈ a.filteredModels.map Model.id)
    ∧ (∀ x, x ∈ a.filteredModels.map Model.id →
        x ∈ (selectAllModels selectorThrows a).selectedModels)
    ∧ (∀ x, x ∉ a.filteredModels.map Model.id →
        (x ∈ (selectAllModels selectorThrows a).selectedModels ↔ x ∈ a.selectedModels))
    ∧ (a.filteredModels = [] →
        (selectAllModels selectorThrows a).selectedModels = a.selectedModels) := by
  have key : ∀ x, x ∈ (selectAllModels selectorThrows a).selectedModels ↔
      x ∈ a.selectedModels ∨ x ∈ a.filteredModels.map Model.id := by
    intro x
    rw [selectAllModels_selectedModels, selectAllLoop_of_valid _ _ _ hvalid]
    exact mem_foldl_setAdd a.filteredModels a.selectedModels x
  refine ⟨key, ?_, ?_, ?_⟩
  · intro x hx
    exact (key x).2 (Or.inr hx)
  · intro x hx
    rw [key x]
    constructor
    · rintro (h | h)
      · exact h
      · exact absurd h hx
    · exact Or.inl
  · intro hv
    rw [selectAllModels_selectedModels, hv]
    rfl

/-- The selection `{mistral-7b}` and the view `gpt-4`, `mistral-7b`: `gpt-4` is
selected afterwards and `llama-3`, outside the view, is as unselected as before. -/
theorem selectAllModels_selection_witness :
    "gpt-4" ∈ (selectAllModels sampleSelectorThrows
        { selectedModels := ["mistral-7b"],
          filteredModels := [{ id := "gpt-4" }, { id := "mistral-7b" }] }).selectedModels
    ∧ ("llama-3" ∈ (selectAllModels sampleSelectorThrows
        { selectedModels := ["mistral-7b"],
          filteredModels := [{ id := "gpt-4" }, { id := "mistral-7b" }] }).selectedModels
        ↔ "llama-3" ∈ ["mistral-7b"]) :=
  ⟨(selectAllModels_selection sampleSelectorThrows
        { selectedModels := ["mistral-7b"],
          filteredModels := [{ id := "gpt-4" }, { id := "mistral-7b" }] } (by decide)).2.1
      "gpt-4" (by decide),
   (selectAllModels_selection sampleSelectorThrows
        { selectedModels := ["mistral-7b"],
          filteredModels := [{ id := "gpt-4" }, { id := "mistral-7b" }] } (by decide)).2.2.1
      "llama-3" (by decide)⟩

/-- C2 fails on the code: for the empty selection and the view `a"b`, `gpt-4`,
`selectAllModels()` adds `a"b`, then `updateModelOptionState` throws at the selector
built from it and the loop ends: `gpt-4`, an identifier of the view, is not selected
afterwards. -/
theorem selectAllModels_throw_stops_loop :
    (selectAllModels sampleSelectorThrows
        { filteredModels := [{ id := "a\"b" }, { id := "gpt-4" }] }).selectedModels
      = ["a\"b"]
    ∧ "gpt-4" ∉ (selectAllModels sampleSelectorThrows
        { filteredModels := [{ id := "a\"b" }, { id := "gpt-4" }] }).selectedModels
    ∧ (selectAllLoop sampleSelectorThrows [{ id := "a\"b" }, { id := "gpt-4" }] []).2
      = true := by
  decide

/-- When `querySelector` accepts the selector of every identifier of the filtered
view, `clearAllModels()` leaves the selection equal to the old selection minus the
identifiers of the view; with an empty view the selection is unchanged. -/
theorem clearAllModels_selection (selectorThrows : String → Bool) (a : App)
    (hvalid : ∀ m ∈ a.filteredModels, selectorThrows m.id = false) :
    (∀ x, x ∈ (clearAllModels selectorThrows a).selectedModels ↔
        x ∈ a.selectedModels ∧ x ∉ a.filteredModels.map Model.id)
    ∧ (∀ x, x ∈ a.filteredModels.map Model.id →
        x ∉ (clearAllModels selectorThrows a).selectedModels)
    ∧ (∀ x, x ∉ a.filteredModels.map Model.id →
        (x ∈ (clearAllModels selectorThrows a).selectedModels ↔ x ∈ a.selectedModels))
    ∧ (a.filteredModels = [] →
        (clearAllModels selectorThrows a).selectedModels = a.selectedModels) := by
  have key : ∀ x, x ∈ (clearAllModels selectorThrows a).selectedModels ↔
      x ∈ a.selectedModels ∧ x ∉ a.filteredModels.map Model.id := by
    intro x
    rw [clearAllModels_selectedModels, clearAllLoop_of_valid _ _ _ hvalid]
    exact mem_foldl_setDelete a.filteredModels a.selectedModels x
  refine ⟨key, ?_, ?_, ?_⟩
  · intro x hx h
    exact ((key x).1 h).2 hx
  · intro x hx
    rw [key x]
    constructor
    · exact fun h => h.1
    · exact fun h => ⟨h, hx⟩
  · intro hv
    rw [clearAllModels_selectedModels, hv]
    rfl

/-- The selection `{gpt-4, llama-3}` and the view `gpt-4`, `mistral-7b`: `gpt-4` is
unselected afterwards and `llama-3`, outside the view, is as selected as before. -/
theorem clearAllModels_selection_witness :
    "gpt-4" ∉ (clearAllModels sampleSelectorThrows
        { selectedModels := ["gpt-4", "llama-3"],
          filteredModels := [{ id := "gpt-4" }, { id := "mistral-7b" }] }).selectedModels
    ∧ ("llama-3" ∈ (clearAllModels sampleSelectorThrows
        { selectedModels := ["gpt-4", "llama-3"],
          filteredModels := [{ id := "gpt-4" }, { id := "mistral-7b" }] }).selectedModels
        ↔ "llama-3" ∈ ["gpt-4", "llama-3"]) :=
  ⟨(clearAllModels_selection sampleSelectorThrows
        { selectedModels := ["gpt-4", "llama-3"],
          filteredModels := [{ id := "gpt-4" }, { id := "mistral-7b" }] } (by decide)).2.1
      "gpt-4" (by decide),
   (clearAllModels_selection sampleSelectorThrows
        { selectedModels := ["gpt-4", "llama-3"],
          filteredModels := [{ id := "gpt-4" }, { id := "mistral-7b" }] } (by decide)).2.2.1
      "llama-3" (by decide)⟩

/-- C3 fails on the code: for the selection `{gpt-4}` and the view `a"b`, `gpt-4`,
`clearAllModels()` deletes `a"b`, then `updateModelOptionState` throws at the selector
built from it and the loop ends: `gpt-4`, an identifier of the view, is still
selected afterwards. -/
theorem clearAllModels_throw_stops_loop :
    (clearAllModels sampleSelectorThrows
        { selectedModels := ["gpt-4"],
          filteredModels := [{ id := "a\"b" }, { id := "gpt-4" }] }).selectedModels
      = ["gpt-4"]
    ∧ "gpt-4" ∈ (clearAllModels sampleSelectorThrows
        { selectedModels := ["gpt-4"],
          filteredModels := [{ id := "a\"b" }, { id := "gpt-4" }] }).selectedModels
    ∧ (clearAllLoop sampleSelectorThrows [{ id := "a\"b" }, { id := "gpt-4" }]
        ["gpt-4"]).2 = true := by
  decide

/-- C4, as the claim states it, fails: with `gpt-4` already selected,
`toggleModel("gpt-4", true)` changes nothing and `toggleModel("gpt-4", false)` then
removes it, so the selection `{gpt-4}` ends empty instead of being restored. -/
theorem toggleModel_round_trip_counterexample :
    (toggleModel sampleSelectorThrows
        (toggleModel sampleSelectorThrows { selectedModels := ["gpt-4"] } "gpt-4" true)
        "gpt-4" false).selectedModels
      ≠ ({ selectedModels := ["gpt-4"] } : App).selectedModels
    ∧ (toggleModel sampleSelectorThrows
        (toggleModel sampleSelectorThrows { selectedModels := ["gpt-4"] } "gpt-4" true)
        "gpt-4" false).selectedModels = [] := by
  decide

/-- C4 (amended): `toggleModel(id, true)` followed by `toggleModel(id, false)` leaves
the selection equal to the prior one without `id`; it restores the prior selection,
members and order, when `id` was not selected before the two calls. This holds
whether or not `updateModelOptionState` throws in the two calls. -/
theorem toggleModel_on_off (selectorThrows : String → Bool) (a : App) (id : String) :
    (∀ x, x ∈ (toggleModel selectorThrows (toggleModel selectorThrows a id true)
          id false).selectedModels ↔
        x ∈ a.selectedModels ∧ x ≠ id)
    ∧ (id ∉ a.selectedModels →
        (toggleModel selectorThrows (toggleModel selectorThrows a id true)
          id false).selectedModels = a.selectedModels) := by
  have hsel : (toggleModel selectorThrows (toggleModel selectorThrows a id true)
      id false).selectedModels = setDelete (setAdd a.selectedModels id) id := by
    rw [toggleModel_selectedModels, toggleModel_selectedModels]
    simp
  refine ⟨?_, ?_⟩
  · intro x
    rw [hsel, mem_setDelete, mem_setAdd]
    constructor
    · rintro ⟨h | h, hne⟩
      · exact ⟨h, hne⟩
      · exact absurd h hne
    · exact fun h => ⟨Or.inl h.1, h.2⟩
  · intro h
    rw [hsel]
    exact setDelete_setAdd_of_not_mem a.selectedModels id h

/-- The amended C4 at the selection `{llama-3}` and the identifier `gpt-4`. -/
theorem toggleModel_on_off_witness :
    (toggleModel sampleSelectorThrows
        (toggleModel sampleSelectorThrows { selectedModels := ["llama-3"] } "gpt-4" true)
        "gpt-4" false).selectedModels = ["llama-3"] :=
  (toggleModel_on_off sampleSelectorThrows { selectedModels := ["llama-3"] } "gpt-4").2
    (by decide)

/-- C5: `filterModels(term)` leaves the selection and the catalog unchanged; the
state after it is the state before with only the filtered view replaced. -/
theorem filterModels_frame (toLowerCase : String → String) (a : App) (term : String) :
    (filterModels toLowerCase a term).selectedModels = a.selectedModels
    ∧ (filterModels toLowerCase a term).models = a.models
    ∧ filterModels toLowerCase a term
        = { a with filteredModels := (filterModels toLowerCase a term).filteredModels } := by
  unfold filterModels
  split <;> exact ⟨rfl, rfl, rfl⟩

/-! ## Prompt dispatcher: one outcome per selected model -/

theorem getD_cons_eraseIdx_perm (l : List String) (i : Nat) (d : String)
    (h : i < l.length) : (l.getD i d :: l.eraseIdx i).Perm l := by
  induction l generalizing i with
  | nil => simp at h
  | cons x xs ih =>
    cases i with
    | zero => simp
    | succ n =>
      have hn : n < xs.length := by simpa using h
      have h1 : ((x :: xs).getD (n + 1) d :: (x :: xs).eraseIdx (n + 1))
          = xs.getD n d :: x :: xs.eraseIdx n := by simp
      rw [h1]
      exact (List.Perm.swap x (xs.getD n d) (xs.eraseIdx n)).trans ((ih n hn).cons x)

theorem settleAll_perm (f : String → ResponseData) (schedule : List Nat)
    (pending : List String) : (settleAll f schedule pending).Perm (pending.map f) := by
  induction schedule generalizing pending with
  | nil =>
    cases pending with
    | nil => simp [settleAll]
    | cons p ps => simp [settleAll]
  | cons k ks ih =>
    cases pending with
    | nil => simp [settleAll]
    | cons p ps =>
      have hi : k % (ps.length + 1) < (p :: ps).length := by
        simpa using Nat.mod_lt k (Nat.succ_pos ps.length)
      have hperm := getD_cons_eraseIdx_perm (p :: ps) (k % (ps.length + 1)) p hi
      have h1 : settleAll f (k :: ks) (p :: ps)
          = f ((p :: ps).getD (k % (ps.length + 1)) p)
            :: settleAll f ks ((p :: ps).eraseIdx (k % (ps.length + 1))) := rfl
      rw [h1]
      exact ((ih _).cons _).trans (hperm.map f)

theorem settle_modelId (request : String → Except String Reply)
    (startTime endTime : String → Int) (modelId : String) :
    (settle request startTime endTime modelId).modelId = modelId := by
  unfold settle
  cases request modelId <;> rfl

/-- C6: for every selection, every result of each per-model request (returned or
thrown) and every order in which the requests settle, `processModels` returns a list
with exactly one outcome per selected identifier: the success entry with the returned
content and token count when the request of that model returned, the failure entry
with the thrown message and duration 0 when it threw. The outcome of a model depends
on its own request only. -/
theorem processModels_outcomes (a : App) (prompt : String)
    (streaming regular : String → String → Except String Reply)
    (startTime endTime : String → Int) (schedule : List Nat) :
    ((processModels a prompt streaming regular startTime endTime schedule).map
        ResponseData.modelId).Perm a.selectedModels
    ∧ (a.selectedModels.Nodup → ∀ id ∈ a.selectedModels,
        ((processModels a prompt streaming regular startTime endTime schedule).filter
          (fun r => decide (r.modelId = id))).length = 1)
    ∧ (∀ r ∈ processModels a prompt streaming regular startTime endTime schedule,
        ∀ response : Reply,
        (if a.streamingChecked then streaming r.modelId prompt else regular r.modelId prompt)
          = .ok response →
        r = { modelId := r.modelId, success := true, content := some response.content,
              duration := endTime r.modelId - startTime r.modelId,
              tokensUsed := some response.tokensUsed })
    ∧ (∀ r ∈ processModels a prompt streaming regular startTime endTime schedule,
        ∀ message : String,
        (if a.streamingChecked then streaming r.modelId prompt else regular r.modelId prompt)
          = .error message →
        r = { modelId := r.modelId, success := false, error := some message,
              duration := 0 }) := by
  have hperm := settleAll_perm
    (settle (fun modelId => if a.streamingChecked then streaming modelId prompt
      else regular modelId prompt) startTime endTime) schedule a.selectedModels
  have hids : ((processModels a prompt streaming regular startTime endTime schedule).map
      ResponseData.modelId).Perm a.selectedModels := by
    have h2 := hperm.map ResponseData.modelId
    rw [List.map_map] at h2
    have h3 : (ResponseData.modelId ∘ settle (fun modelId =>
        if a.streamingChecked then streaming modelId prompt else regular modelId prompt)
        startTime endTime) = id := by
      funext x
      exact settle_modelId _ _ _ x
    rw [h3, List.map_id] at h2
    exact h2
  have hmem : ∀ r ∈ processModels a prompt streaming regular startTime endTime schedule,
      r = settle (fun modelId => if a.streamingChecked then streaming modelId prompt
        else regular modelId prompt) startTime endTime r.modelId := by
    intro r hr
    have hr2 := (hperm.mem_iff).1 hr
    rw [List.mem_map] at hr2
    obtain ⟨x, _, hx⟩ := hr2
    rw [← hx, settle_modelId]
  refine ⟨hids, ?_, ?_, ?_⟩
  · intro hnd x hx
    have hc : ((processModels a prompt streaming regular startTime endTime schedule).map
        ResponseData.modelId).count x = 1 := by
      rw [hids.count_eq]
      exact List.count_eq_one_of_mem hnd hx
    rw [List.count, List.countP_map, List.countP_eq_length_filter] at hc
    rw [← hc]
    congr 2
  · intro r hr response hreq
    have h := hmem r hr
    unfold settle at h
    simp only [hreq] at h
    exact h
  · intro r hr message hreq
    have h := hmem r hr
    unfold settle at h
    simp only [hreq] at h
    exact h

/-- C6 at the selection `{A, B}` where the request of `A` returns and that of `B`
throws, `B` settling first: two outcomes, one per model. -/
theorem processModels_outcomes_witness :
    ((processModels { selectedModels := ["A", "B"] } "hello"
        (fun _ _ => .error "unused")
        (fun m _ => if m = "A" then .ok { content := "hi", tokensUsed := 3 }
          else .error "boom")
        (fun _ => 5) (fun _ => 12) [1]).filter
          (fun r => decide (r.modelId = "B"))).length = 1
    ∧ processModels { selectedModels := ["A", "B"] } "hello"
        (fun _ _ => .error "unused")
        (fun m _ => if m = "A" then .ok { content := "hi", tokensUsed := 3 }
          else .error "boom")
        (fun _ => 5) (fun _ => 12) [1]
      = [{ modelId := "B", success := false, error := some "boom", duration := 0 },
         { modelId := "A", success := true, content := some "hi", duration := 7,
           tokensUsed := some 3 }] :=
  ⟨(processModels_outcomes { selectedModels := ["A", "B"] } "hello"
        (fun _ _ => .error "unused")
        (fun m _ => if m = "A" then .ok { content := "hi", tokensUsed := 3 }
          else .error "boom")
        (fun _ => 5) (fun _ => 12) [1]).2.1 (by decide) "B" (by decide),
   by decide⟩

/-! ## Prompt dispatcher: the non-streaming reply -/

theorem roundDouble_of_le (n : Nat) (h : n ≤ 2 ^ 53) : roundDouble n = n := by
  unfold roundDouble
  rw [if_pos h]

/-- C7, as the claim states it, fails: for a usage that reports `total_tokens = 0`
with `prompt_tokens = 10` and `completion_tokens = 5`, `sendRegularRequest` reports
15 tokens, not the reported total 0; for a usage without total and with
`prompt_tokens = 2^53` and `completion_tokens = 1` it reports 2^53, the sum as a
double, not 2^53 + 1; and for a response whose first choice is `null` it throws and
reports no count. -/
theorem sendRegularRequest_zero_total_counterexample :
    sendRegularRequest
        (fun _ _ => .ok (.ok (some { usage := some usageZeroTotal })))
        "m" "hello"
      = .ok { content := "No response generated", tokensUsed := 15 }
    ∧ sendRegularRequest
        (fun _ _ => .ok (.ok (some { usage := some usageZeroTotal })))
        "m" "hello"
      ≠ .ok { content := "No response generated", tokensUsed := 0 }
    ∧ sendRegularRequest
        (fun _ _ => .ok (.ok (some { usage := some usageLargeCounts })))
        "m" "hello"
      = .ok { content := "No response generated", tokensUsed := 9007199254740992 }
    ∧ (9007199254740992 : Nat) ≠ 9007199254740992 + 1
    ∧ sendRegularRequest
        (fun _ _ => .ok (.ok (some { choices := some [none], usage := some usageNoTotal })))
        "m" "hello"
      = .error (nullReadMessage "message") := by
  decide

/-- C7 (amended): for a successful non-streaming response whose body is not `null`
and whose first choice, if there is one, is not `null`: when the usage has no
`total_tokens`, or reports it as 0, and has the integer counts `prompt_tokens = p`
and `completion_tokens = c` with `p + c` at most 2^53, `sendRegularRequest` reports
`tokensUsed = p + c`; when the usage reports a non-zero `total_tokens`, `tokensUsed`
equals it. -/
theorem sendRegularRequest_tokensUsed (fetch : String → String → RegularFetch)
    (modelId prompt : String) (data : CompletionData) (usage : Usage)
    (hfetch : fetch modelId prompt = .ok (.ok (some data)))
    (hchoice : ∀ rest, data.choices ≠ some (none :: rest))
    (husage : data.usage = some usage) :
    (∀ p c : Nat, (usage.total_tokens = none ∨ usage.total_tokens = some 0) →
        usage.prompt_tokens = some p → usage.completion_tokens = some c →
        p + c ≤ 2 ^ 53 →
        ∃ content, sendRegularRequest fetch modelId prompt
          = .ok { content := content, tokensUsed := p + c })
    ∧ (∀ t : Nat, usage.total_tokens = some t → t ≠ 0 →
        ∃ content, sendRegularRequest fetch modelId prompt
          = .ok { content := content, tokensUsed := t }) := by
  have hok : ∃ content, sendRegularRequest fetch modelId prompt
      = .ok { content := content,
              tokensUsed := orNum usage.total_tokens
                (orNum (addNum usage.prompt_tokens usage.completion_tokens) 0) } := by
    simp only [sendRegularRequest, hfetch, husage]
    cases hch : data.choices with
    | none => exact ⟨_, rfl⟩
    | some l =>
      cases l with
      | nil => exact ⟨_, rfl⟩
      | cons first rest =>
        cases first with
        | none => exact absurd hch (hchoice rest)
        | some choice => exact ⟨_, rfl⟩
  refine ⟨?_, ?_⟩
  · intro p c ht hp hc hle
    have hsum : orNum usage.total_tokens
        (orNum (addNum usage.prompt_tokens usage.completion_tokens) 0) = p + c := by
      have h1 : orNum (addNum usage.prompt_tokens usage.completion_tokens) 0 = p + c := by
        rw [hp, hc]
        simp only [addNum, orNum, roundDouble_of_le _ hle]
        split
        · rfl
        · omega
      rcases ht with ht | ht <;> rw [ht] <;> exact h1
    rw [hsum] at hok
    exact hok
  · intro t ht hne
    have hsum : orNum usage.total_tokens
        (orNum (addNum usage.prompt_tokens usage.completion_tokens) 0) = t := by
      rw [ht]
      simp [orNum, hne]
    rw [hsum] at hok
    exact hok

/-- The amended C7 at a usage without total and with `prompt_tokens = 10`,
`completion_tokens = 5`: 15 tokens. -/
theorem sendRegularRequest_tokensUsed_witness :
    ∃ content, sendRegularRequest
        (fun _ _ => .ok (.ok (some { usage := some usageNoTotal })))
        "m" "hello"
      = .ok { content := content, tokensUsed := 10 + 5 } :=
  (sendRegularRequest_tokensUsed
      (fun _ _ => .ok (.ok (some { usage := some usageNoTotal })))
      "m" "hello"
      { usage := some usageNoTotal } usageNoTotal rfl (by intro rest h; cases h) rfl).1
    10 5 (Or.inl rfl) rfl rfl (by norm_num)

/-- C8, as the claim states it, fails: for a response whose first choice has neither
`message.content` nor `text`, the content is `"No content in response"`, not
`"No response generated"`; for a first choice whose `message.content` is present but
empty and whose `text` is `"t"`, the content is `"t"`; and for a `null` body or a
`null` first choice, which have neither field, `sendRegularRequest` throws. -/
theorem sendRegularRequest_placeholder_counterexample :
    sendRegularRequest (fun _ _ => .ok (.ok (some { choices := some [some {}] })))
        "m" "hello"
      = .ok { content := "No content in response", tokensUsed := 0 }
    ∧ sendRegularRequest (fun _ _ => .ok (.ok (some { choices := some [some {}] })))
        "m" "hello"
      ≠ .ok { content := "No response generated", tokensUsed := 0 }
    ∧ sendRegularRequest
        (fun _ _ => .ok (.ok (some { choices := some [some choiceEmptyContent] })))
        "m" "hello"
      = .ok { content := "t", tokensUsed := 0 }
    ∧ sendRegularRequest (fun _ _ => .ok (.ok none)) "m" "hello"
      = .error (nullReadMessage "choices")
    ∧ sendRegularRequest (fun _ _ => .ok (.ok (some { choices := some [none] })))
        "m" "hello"
      = .error (nullReadMessage "message") := by
  decide

/-- C8 (amended): for every successful non-streaming response whose body is not
`null` and whose first choice, if there is one, is not `null`, `sendRegularRequest`
returns, without failing, as content the first choice's `message.content` when it is
present and non-empty, otherwise the first choice's `text` when it is present and
non-empty, otherwise `"No content in response"`; when the response has no choice at
all the content is `"No response generated"`. -/
theorem sendRegularRequest_content (fetch : String → String → RegularFetch)
    (modelId prompt : String) (data : CompletionData)
    (hfetch : fetch modelId prompt = .ok (.ok (some data))) :
    ((∀ rest, data.choices ≠ some (none :: rest)) →
      ∃ reply, sendRegularRequest fetch modelId prompt = .ok reply)
    ∧ (∀ (choice : Choice) (rest : List (Option Choice)) (message : Message) (c : String),
        data.choices = some (some choice :: rest) → choice.message = some message →
        message.content = some c → c ≠ "" →
        ∃ tokens, sendRegularRequest fetch modelId prompt
          = .ok { content := c, tokensUsed := tokens })
    ∧ (∀ (choice : Choice) (rest : List (Option Choice)) (t : String),
        data.choices = some (some choice :: rest) →
        (choice.message = none ∨ choice.message = some { content := none }
          ∨ choice.message = some { content := some "" }) →
        choice.text = some t → t ≠ "" →
        ∃ tokens, sendRegularRequest fetch modelId prompt
          = .ok { content := t, tokensUsed := tokens })
    ∧ (∀ (choice : Choice) (rest : List (Option Choice)),
        data.choices = some (some choice :: rest) →
        (choice.message = none ∨ choice.message = some { content := none }
          ∨ choice.message = some { content := some "" }) →
        (choice.text = none ∨ choice.text = some "") →
        ∃ tokens, sendRegularRequest fetch modelId prompt
          = .ok { content := "No content in response", tokensUsed := tokens })
    ∧ ((data.choices = none ∨ data.choices = some []) →
        ∃ tokens, sendRegularRequest fetch modelId prompt
          = .ok { content := "No response generated", tokensUsed := tokens }) := by
  have htruthy : ∀ s : String, s ≠ "" → truthy s = true := by
    intro s hs
    cases h : truthy s with
    | true => rfl
    | false => exact absurd (eq_empty_of_not_truthy s h) hs
  have hmsg : ∀ choice : Choice,
      (choice.message = none ∨ choice.message = some { content := none }
        ∨ choice.message = some { content := some "" }) →
      ∀ b, orElse (choice.message.bind (fun m => m.content)) b = b := by
    intro choice h b
    rcases h with h | h | h <;> rw [h] <;> rfl
  refine ⟨?_, ?_, ?_, ?_, ?_⟩
  · intro hchoice
    simp only [sendRegularRequest, hfetch]
    cases hch : data.choices with
    | none => exact ⟨_, rfl⟩
    | some l =>
      cases l with
      | nil => exact ⟨_, rfl⟩
      | cons first rest =>
        cases first with
        | none => exact absurd hch (hchoice rest)
        | some choice => exact ⟨_, rfl⟩
  · intro choice rest message c hch hm hc hne
    simp only [sendRegularRequest, hfetch, hch, hm, hc, Option.bind, orElse,
      htruthy c hne, if_true]
    exact ⟨_, rfl⟩
  · intro choice rest t hch hm ht hne
    simp only [sendRegularRequest, hfetch, hch, hmsg choice hm, ht]
    simp only [orElse, htruthy t hne, if_true]
    exact ⟨_, rfl⟩
  · intro choice rest hch hm ht
    simp only [sendRegularRequest, hfetch, hch, hmsg choice hm]
    rcases ht with ht | ht <;> rw [ht] <;> exact ⟨_, rfl⟩
  · intro hch
    simp only [sendRegularRequest, hfetch]
    rcases hch with hch | hch <;> rw [hch] <;> exact ⟨_, rfl⟩

/-- The amended C8 at a response whose first choice has the message content `"hi"`. -/
theorem sendRegularRequest_content_witness :
    ∃ tokens, sendRegularRequest
        (fun _ _ => .ok (.ok (some { choices := some [some sampleChoice] })))
        "m" "hello"
      = .ok { content := "hi", tokensUsed := tokens } :=
  (sendRegularRequest_content
      (fun _ _ => .ok (.ok (some { choices := some [some sampleChoice] })))
      "m" "hello" { choices := some [some sampleChoice] } rfl).2.1
    sampleChoice [] { content := some "hi" } "hi" rfl rfl rfl (by decide)

/-! ## Prompt dispatcher: the streamed reply -/

theorem splitChars_ne_nil (sep : Char) (l : List Char) : splitChars sep l ≠ [] := by
  cases l with
  | nil => simp [splitChars]
  | cons c cs =>
    unfold splitChars
    split
    · simp
    · split <;> simp

theorem splitChars_append_sep (sep : Char) (x r : List Char) :
    splitChars sep (x ++ sep :: r) = splitChars sep x ++ splitChars sep r := by
  induction x with
  | nil => simp [splitChars]
  | cons c cs ih =>
    by_cases hc : c = sep
    · simp [splitChars, hc, ih]
    · have h1 : splitChars sep (c :: cs ++ sep :: r)
          = match splitChars sep (cs ++ sep :: r) with
            | [] => [[c]]
            | l :: ls => (c :: l) :: ls := by
        simp [splitChars, hc]
      have h2 : splitChars sep (c :: cs)
          = match splitChars sep cs with
            | [] => [[c]]
            | l :: ls => (c :: l) :: ls := by
        simp [splitChars, hc]
      rw [h1, h2, ih]
      cases hs : splitChars sep cs with
      | nil => exact absurd hs (splitChars_ne_nil sep cs)
      | cons l ls => simp

theorem splitChars_of_not_mem (sep : Char) (x : List Char) (h : sep ∉ x) :
    splitChars sep x = [x] := by
  induction x with
  | nil => simp [splitChars]
  | cons c cs ih =>
    have hc : c ≠ sep := fun hc => h (hc ▸ List.mem_cons_self c cs)
    have hcs : sep ∉ cs := fun hcs => h (List.mem_cons_of_mem c hcs)
    simp [splitChars, hc, ih hcs]

theorem split_append_newline (x r : String) :
    split (x ++ "\n" ++ r) '\n' = split x '\n' ++ split r '\n' := by
  unfold split
  have h : (x ++ "\n" ++ r).data = x.data ++ '\n' :: r.data := by
    simp only [String.data_append]
    simp
  rw [h, splitChars_append_sep, List.map_append]

theorem split_of_no_newline (x : String) (h : '\n' ∉ x.data) : split x '\n' = [x] := by
  unfold split
  rw [splitChars_of_not_mem '\n' x.data h]
  rfl

theorem split_empty : split "" '\n' = [""] := by decide

theorem processLine_empty (jsonParse : String → Option StreamPayload) (st : StreamState) :
    processLine jsonParse st "" = st := by
  unfold processLine
  have h : startsWith "" "data: " = false := by decide
  simp [h]

theorem startsWith_data_append (p : String) : startsWith ("data: " ++ p) "data: " = true := by
  unfold startsWith
  simp only [String.data_append]
  simp [List.isPrefixOf]

theorem slice_data_append (p : String) : slice ("data: " ++ p) 6 = p := by
  unfold slice
  simp only [String.data_append]
  rfl

theorem processLine_done (jsonParse : String → Option StreamPayload) (st : StreamState) :
    processLine jsonParse st ("data: " ++ "[DONE]") = st := by
  unfold processLine
  rw [startsWith_data_append, slice_data_append]
  simp

/-- A chunk that is a run of whole frames is processed frame by frame. -/
theorem processChunk_sseBody (jsonParse : String → Option StreamPayload)
    (ps : List String) (st : StreamState) :
    processChunk jsonParse st (sseBody ps)
      = ps.foldl (fun st p => (split ("data: " ++ p) '\n').foldl (processLine jsonParse) st)
          st := by
  induction ps generalizing st with
  | nil =>
    simp only [sseBody, processChunk, List.foldl_nil]
    rw [split_empty]
    simp [processLine_empty]
  | cons p ps ih =>
    have h := ih ((split ("data: " ++ p) '\n').foldl (processLine jsonParse) st)
    unfold processChunk at h ⊢
    simp only [sseBody, List.foldl_cons]
    rw [split_append_newline, List.foldl_append, h]

theorem readStream_sseBody (jsonParse : String → Option StreamPayload)
    (chunks : List (List String)) :
    readStream jsonParse (chunks.map sseBody)
      = chunks.flatten.foldl
          (fun st p => (split ("data: " ++ p) '\n').foldl (processLine jsonParse) st) {} := by
  unfold readStream
  rw [List.foldl_flatten, List.foldl_map]
  congr 1
  funext st ps
  exact processChunk_sseBody jsonParse ps st

theorem truthy_iff_ne_empty (s : String) : truthy s = true ↔ s ≠ "" := by
  constructor
  · intro h hs
    subst hs
    simp [truthy] at h
  · intro hs
    cases h : truthy s with
    | true => rfl
    | false => exact absurd (eq_empty_of_not_truthy s h) hs

theorem join_acc (acc : String) (l : List String) :
    l.foldl (fun r s => r ++ s) acc = acc ++ String.join l := by
  unfold String.join
  induction l generalizing acc with
  | nil => simp
  | cons d ds ih =>
    simp only [List.foldl_cons]
    rw [ih (acc ++ d), ih ("" ++ d), String.empty_append, String.append_assoc]

theorem join_cons (d : String) (l : List String) : String.join (d :: l) = d ++ String.join l := by
  have h := join_acc ("" ++ d) l
  rw [String.empty_append] at h
  exact h

theorem accumulated_eq (acc : String) (ds : List String) :
    accumulated acc ds
      = (List.range ds.length).map (fun i => acc ++ String.join (ds.take (i + 1))) := by
  induction ds generalizing acc with
  | nil => simp [accumulated]
  | cons d ds ih =>
    simp only [accumulated, List.length_cons]
    rw [List.range_succ_eq_map, List.map_cons, List.map_map, ih (acc ++ d)]
    have h : String.join [d] = d := by
      rw [join_cons]
      exact String.append_empty d
    have h0 : List.take (0 + 1) (d :: ds) = [d] := rfl
    rw [h0, h]
    congr 1
    apply List.map_congr_left
    intro i _
    simp only [Function.comp, Nat.succ_eq_add_one, List.take_succ_cons]
    rw [join_cons, String.append_assoc]

/-- One whole frame: the content grows by the delta the frame carries, and each such
delta is surfaced once, with the content so far. -/
theorem processLine_frame (jsonParse : String → Option StreamPayload)
    (hDone : jsonParse "[DONE]" = none) (st : StreamState) (p : String) :
    (processLine jsonParse st ("data: " ++ p)).content
        = st.content ++ String.join (frameDelta jsonParse p).toList
    ∧ (processLine jsonParse st ("data: " ++ p)).updates
        = st.updates ++ accumulated st.content (frameDelta jsonParse p).toList := by
  have hj : String.join [] = "" := rfl
  have hj1 : ∀ d : String, String.join [d] = d := by
    intro d
    rw [join_cons]
    exact String.append_empty d
  unfold processLine
  rw [startsWith_data_append, slice_data_append]
  simp only [if_true]
  by_cases hp : p = "[DONE]"
  · subst hp
    simp [frameDelta, hDone, hj, accumulated]
  · simp only [hp, if_false]
    unfold frameDelta
    cases hparse : jsonParse p with
    | none => simp [hj, accumulated]
    | some parsed =>
      cases hch : parsed.choices with
      | none => simp [hch, hj, accumulated]
      | some choices =>
        cases hd : (choices.head?.bind (fun c => c.delta)).bind (fun d => d.content) with
        | none =>
          cases hu : parsed.usage.bind (fun u => u.total_tokens) with
          | none => simp [hch, hd, hu, hj, accumulated]
          | some t =>
            by_cases h0 : t = 0 <;> simp [hch, hd, hu, h0, hj, accumulated]
        | some d =>
          cases ht : truthy d with
          | false =>
            cases hu : parsed.usage.bind (fun u => u.total_tokens) with
            | none => simp [hch, hd, hu, ht, hj, accumulated]
            | some t =>
              by_cases h0 : t = 0 <;> simp [hch, hd, hu, ht, h0, hj, accumulated]
          | true =>
            cases hu : parsed.usage.bind (fun u => u.total_tokens) with
            | none => simp [hch, hd, hu, ht, hj1, accumulated]
            | some t =>
              by_cases h0 : t = 0 <;> simp [hch, hd, hu, ht, h0, hj1, accumulated]

theorem accumulated_append (acc : String) (l1 l2 : List String) :
    accumulated acc (l1 ++ l2)
      = accumulated acc l1 ++ accumulated (acc ++ String.join l1) l2 := by
  induction l1 generalizing acc with
  | nil =>
    have hj : String.join [] = "" := rfl
    simp [accumulated, hj]
  | cons d ds ih =>
    have h1 : accumulated acc (d :: ds ++ l2)
        = (acc ++ d) :: accumulated (acc ++ d) (ds ++ l2) := rfl
    have h2 : accumulated acc (d :: ds) = (acc ++ d) :: accumulated (acc ++ d) ds := rfl
    rw [h1, h2, ih (acc ++ d), join_cons, String.append_assoc]
    rfl

theorem join_append (l1 l2 : List String) :
    String.join (l1 ++ l2) = String.join l1 ++ String.join l2 := by
  induction l1 with
  | nil =>
    have hj : String.join [] = "" := rfl
    simp [hj]
  | cons d ds ih =>
    rw [List.cons_append, join_cons, join_cons, ih, String.append_assoc]

theorem foldl_frames (jsonParse : String → Option StreamPayload)
    (hDone : jsonParse "[DONE]" = none) (ps : List String) (st : StreamState) :
    (ps.foldl (fun st p => processLine jsonParse st ("data: " ++ p)) st).content
        = st.content ++ String.join (ps.filterMap (frameDelta jsonParse))
    ∧ (ps.foldl (fun st p => processLine jsonParse st ("data: " ++ p)) st).updates
        = st.updates ++ accumulated st.content (ps.filterMap (frameDelta jsonParse)) := by
  induction ps generalizing st with
  | nil =>
    have hj : String.join [] = "" := rfl
    simp [hj, accumulated]
  | cons p ps ih =>
    have h1 := processLine_frame jsonParse hDone st p
    have h2 := ih (processLine jsonParse st ("data: " ++ p))
    have hfm : (p :: ps).filterMap (frameDelta jsonParse)
        = (frameDelta jsonParse p).toList ++ ps.filterMap (frameDelta jsonParse) := by
      cases hfd : frameDelta jsonParse p <;> simp [List.filterMap_cons, hfd]
    simp only [List.foldl_cons]
    rw [h2.1, h2.2, h1.1, h1.2, hfm, join_append, accumulated_append, String.append_assoc,
      List.append_assoc]
    exact ⟨rfl, rfl⟩

theorem foldl_split_of_no_newline (jsonParse : String → Option StreamPayload)
    (ps : List String) (hnl : ∀ p ∈ ps, '\n' ∉ p.data) (st : StreamState) :
    ps.foldl (fun st p => (split ("data: " ++ p) '\n').foldl (processLine jsonParse) st) st
      = ps.foldl (fun st p => processLine jsonParse st ("data: " ++ p)) st := by
  induction ps generalizing st with
  | nil => rfl
  | cons p ps ih =>
    have hp : '\n' ∉ ("data: " ++ p).data := by
      simp only [String.data_append, List.mem_append, not_or]
      exact ⟨by decide, hnl p (List.mem_cons_self p ps)⟩
    simp only [List.foldl_cons]
    rw [split_of_no_newline _ hp, ih (fun q hq => hnl q (List.mem_cons_of_mem p hq))]
    rfl

/-- C9, as the claim states it, fails: the body of the frames `Hel`, `lo` and `[DONE]`,
delivered in two chunks of which the first ends inside the frame `lo` (after its
`data: `), gives the content `Hel` and the one update `Hel`, not `Hello`: each chunk
is split into lines on its own and the two pieces of the cut frame are passed over. -/
theorem sendStreamingRequest_cut_frame_counterexample :
    sendStreamingRequest
        (fun _ _ => .ok [sseBody [deltaFrame "Hel"] ++ "data: ",
          deltaFrame "lo" ++ "\n" ++ sseBody ["[DONE]"]] none)
        sampleParse "m" "hello"
      = (.ok { content := "Hel", tokensUsed := 0 }, ["Hel"])
    ∧ String.join [sseBody [deltaFrame "Hel"] ++ "data: ",
        deltaFrame "lo" ++ "\n" ++ sseBody ["[DONE]"]]
      = sseBody [deltaFrame "Hel", deltaFrame "lo", "[DONE]"]
    ∧ String.join ([deltaFrame "Hel", deltaFrame "lo", "[DONE]"].filterMap
        (frameDelta sampleParse)) = "Hello" := by
  decide

/-- C9 (amended): for a body made of frames `data: <payload>` each ended by a newline
(no newline inside a payload), delivered in chunks that each hold whole frames, the
content `sendStreamingRequest` returns is the concatenation, in arrival order, of the
deltas of the frames whose payload parses as JSON (the literal `[DONE]` does not) and
carries a non-empty `choices[0].delta.content`, or
`"No response generated"` when that is empty; a frame whose payload does not parse
adds nothing and the stream goes on; and `updateStreamingContent` is called once per
such delta, with the content accumulated so far. So the deltas `Hel`, `lo`, then
`[DONE]` give the updates `Hel`, `Hello` and the content `Hello`. -/
theorem sendStreamingRequest_frames (jsonParse : String → Option StreamPayload)
    (hDone : jsonParse "[DONE]" = none) (fetch : String → String → StreamFetch)
    (modelId prompt : String) (chunks : List (List String))
    (hnl : ∀ chunk ∈ chunks, ∀ p ∈ chunk, '\n' ∉ p.data)
    (hfetch : fetch modelId prompt = .ok (chunks.map sseBody) none) :
    (∃ tokens, sendStreamingRequest fetch jsonParse modelId prompt
      = (.ok { content :=
                 if String.join (chunks.flatten.filterMap (frameDelta jsonParse)) = ""
                 then "No response generated"
                 else String.join (chunks.flatten.filterMap (frameDelta jsonParse)),
               tokensUsed := tokens },
         (List.range (chunks.flatten.filterMap (frameDelta jsonParse)).length).map
           (fun i => String.join ((chunks.flatten.filterMap (frameDelta jsonParse)).take
             (i + 1)))))
    ∧ sendStreamingRequest
        (fun _ _ => .ok [sseBody [deltaFrame "Hel"], sseBody [deltaFrame "lo"],
          sseBody ["[DONE]"]] none)
        sampleParse "m" "hello"
      = (.ok { content := "Hello", tokensUsed := 0 }, ["Hel", "Hello"]) := by
  refine ⟨?_, by decide⟩
  have hnl2 : ∀ p ∈ chunks.flatten, '\n' ∉ p.data := by
    intro p hp
    rw [List.mem_flatten] at hp
    obtain ⟨chunk, hc, hpc⟩ := hp
    exact hnl chunk hc p hpc
  have hread : readStream jsonParse (chunks.map sseBody)
      = chunks.flatten.foldl (fun st p => processLine jsonParse st ("data: " ++ p)) {} := by
    rw [readStream_sseBody, foldl_split_of_no_newline jsonParse chunks.flatten hnl2]
  have hfold := foldl_frames jsonParse hDone chunks.flatten {}
  rw [← hread] at hfold
  have hcontent : (readStream jsonParse (chunks.map sseBody)).content
      = String.join (chunks.flatten.filterMap (frameDelta jsonParse)) := by
    rw [hfold.1]
    exact String.empty_append _
  have hupdates : (readStream jsonParse (chunks.map sseBody)).updates
      = (List.range (chunks.flatten.filterMap (frameDelta jsonParse)).length).map
          (fun i => String.join ((chunks.flatten.filterMap (frameDelta jsonParse)).take
            (i + 1))) := by
    rw [hfold.2, accumulated_eq]
    simp only [List.nil_append]
    apply List.map_congr_left
    intro i _
    exact String.empty_append _
  refine ⟨(readStream jsonParse (chunks.map sseBody)).tokensUsed, ?_⟩
  simp only [sendStreamingRequest, hfetch]
  rw [hcontent, hupdates]
  by_cases hempty : String.join (chunks.flatten.filterMap (frameDelta jsonParse)) = ""
  · rw [hempty]
    rfl
  · have ht := (truthy_iff_ne_empty _).2 hempty
    simp only [orElse, ht, if_true, hempty, if_false]

/-- The amended C9 at the frames `Hel`, a frame that does not parse, `lo` and
`[DONE]`, one per chunk: the content is `Hello`, the updates are `Hel` and `Hello`. -/
theorem sendStreamingRequest_frames_witness :
    ∃ tokens, sendStreamingRequest
        (fun _ _ => .ok ([[deltaFrame "Hel"], ["oops"], [deltaFrame "lo"], ["[DONE]"]].map
          sseBody) none)
        sampleParse "m" "hello"
      = (.ok { content := "Hello", tokensUsed := tokens }, ["Hel", "Hello"]) :=
  (sendStreamingRequest_frames sampleParse (by decide)
      (fun _ _ => .ok ([[deltaFrame "Hel"], ["oops"], [deltaFrame "lo"], ["[DONE]"]].map
        sseBody) none)
      "m" "hello" [[deltaFrame "Hel"], ["oops"], [deltaFrame "lo"], ["[DONE]"]]
      (by decide) rfl).1

theorem foldl_filter_done (jsonParse : String → Option StreamPayload) (ps : List String)
    (st : StreamState) :
    (ps.filter (fun p => decide (p ≠ "[DONE]"))).foldl
        (fun st p => (split ("data: " ++ p) '\n').foldl (processLine jsonParse) st) st
      = ps.foldl
        (fun st p => (split ("data: " ++ p) '\n').foldl (processLine jsonParse) st) st := by
  induction ps generalizing st with
  | nil => rfl
  | cons p ps ih =>
    by_cases hp : p = "[DONE]"
    · subst hp
      have hsplit : split ("data: " ++ "[DONE]") '\n' = ["data: " ++ "[DONE]"] :=
        split_of_no_newline _ (by decide)
      simp only [List.foldl_cons, hsplit, List.foldl_nil, processLine_done]
      rw [← ih st]
      simp
    · simp only [List.filter_cons, hp, ne_eq, not_false_eq_true, decide_True, if_true,
        List.foldl_cons]
      exact ih _

/-- C10, as the claim states it, fails: for the frames `a`, `[DONE]`, `b` and a usage
frame with total 7, `sendStreamingRequest` returns the content `ab` and 7 tokens,
while the frames before the first `[DONE]` accumulate the content `a` and 0 tokens. -/
theorem sendStreamingRequest_done_counterexample :
    sendStreamingRequest
        (fun _ _ => .ok [sseBody [deltaFrame "a", "[DONE]", deltaFrame "b", usageFrame]] none)
        sampleParse "m" "hello"
      = (.ok { content := "ab", tokensUsed := 7 }, ["a", "ab"])
    ∧ sendStreamingRequest (fun _ _ => .ok [sseBody [deltaFrame "a"]] none)
        sampleParse "m" "hello"
      = (.ok { content := "a", tokensUsed := 0 }, ["a"]) := by
  decide

/-- C10 (amended): a frame whose payload is the literal `[DONE]` is passed over
without error and does not end the stream: for every sequence of frames, what
`sendStreamingRequest` returns and surfaces is what it returns and surfaces for the
same frames with the `[DONE]` frames left out, the frames after a `[DONE]` included;
a `[DONE]` frame that comes last changes nothing, and the call returns. -/
theorem sendStreamingRequest_done_skipped (jsonParse : String → Option StreamPayload)
    (modelId prompt : String) (chunks : List (List String)) :
    sendStreamingRequest (fun _ _ => .ok (chunks.map sseBody) none) jsonParse modelId prompt
      = sendStreamingRequest
          (fun _ _ => .ok ((chunks.map
            (fun chunk => chunk.filter (fun p => decide (p ≠ "[DONE]")))).map sseBody) none)
          jsonParse modelId prompt
    ∧ sendStreamingRequest (fun _ _ => .ok ((chunks ++ [["[DONE]"]]).map sseBody) none)
        jsonParse modelId prompt
      = sendStreamingRequest (fun _ _ => .ok (chunks.map sseBody) none)
          jsonParse modelId prompt
    ∧ ∃ reply updates,
        sendStreamingRequest (fun _ _ => .ok (chunks.map sseBody) none)
          jsonParse modelId prompt = (.ok reply, updates) := by
  have h1 : readStream jsonParse
      ((chunks.map (fun chunk => chunk.filter (fun p => decide (p ≠ "[DONE]")))).map sseBody)
      = readStream jsonParse (chunks.map sseBody) := by
    rw [readStream_sseBody, readStream_sseBody, ← List.filter_flatten, foldl_filter_done]
  have h2 : readStream jsonParse ((chunks ++ [["[DONE]"]]).map sseBody)
      = readStream jsonParse (chunks.map sseBody) := by
    have hsplit : split ("data: " ++ "[DONE]") '\n' = ["data: " ++ "[DONE]"] :=
      split_of_no_newline _ (by decide)
    rw [readStream_sseBody, readStream_sseBody]
    simp only [List.flatten_append, List.flatten_cons, List.flatten_nil, List.append_nil,
      List.foldl_append, List.foldl_cons, List.foldl_nil, hsplit, processLine_done]
  refine ⟨?_, ?_, ?_⟩
  · simp only [sendStreamingRequest, h1]
  · simp only [sendStreamingRequest, h2]
  · exact ⟨_, _, rfl⟩

/-! ## Prompt dispatcher: the streamed token count -/

/-- One whole frame that has a `choices` field when it carries a usage total: a
non-zero usage total of the frame replaces the running total, anything else keeps
it. -/
theorem processLine_frame_tokens (jsonParse : String → Option StreamPayload)
    (hDone : jsonParse "[DONE]" = none) (st : StreamState) (p : String)
    (hchoices : frameUsage jsonParse p ≠ none →
      (jsonParse p).all (fun parsed => parsed.choices.isSome) = true) :
    (processLine jsonParse st ("data: " ++ p)).tokensUsed
      = (((frameUsage jsonParse p).toList.filter (fun t => decide (t ≠ 0))).getLast?).getD
          st.tokensUsed := by
  unfold processLine
  rw [startsWith_data_append, slice_data_append]
  simp only [if_true]
  by_cases hp : p = "[DONE]"
  · subst hp
    simp [frameUsage, hDone]
  · simp only [hp, if_false]
    unfold frameUsage
    cases hparse : jsonParse p with
    | none => simp
    | some parsed =>
      cases hch : parsed.choices with
      | none =>
        cases hu : parsed.usage.bind (fun u => u.total_tokens) with
        | none => simp [hch, hu]
        | some t =>
          have h := hchoices (by simp [frameUsage, hparse, hu])
          simp [hparse, Option.all, hch] at h
      | some choices =>
        cases hu : parsed.usage.bind (fun u => u.total_tokens) with
        | none =>
          cases hd : (choices.head?.bind (fun c => c.delta)).bind (fun d => d.content) with
          | none => simp [hch, hd, hu]
          | some d => cases ht : truthy d <;> simp [hch, hd, hu, ht]
        | some t =>
          by_cases h0 : t = 0
          · cases hd : (choices.head?.bind (fun c => c.delta)).bind (fun d => d.content) with
            | none => simp [hch, hd, hu, h0]
            | some d => cases ht : truthy d <;> simp [hch, hd, hu, ht, h0]
          · simp [hch, hu, h0]

theorem foldl_frames_tokens (jsonParse : String → Option StreamPayload)
    (hDone : jsonParse "[DONE]" = none) (ps : List String)
    (hchoices : ∀ p ∈ ps, frameUsage jsonParse p ≠ none →
      (jsonParse p).all (fun parsed => parsed.choices.isSome) = true)
    (st : StreamState) :
    (ps.foldl (fun st p => processLine jsonParse st ("data: " ++ p)) st).tokensUsed
      = (((ps.filterMap (frameUsage jsonParse)).filter
          (fun t => decide (t ≠ 0))).getLast?).getD st.tokensUsed := by
  induction ps generalizing st with
  | nil => simp
  | cons p ps ih =>
    have h1 := processLine_frame_tokens jsonParse hDone st p
      (hchoices p (List.mem_cons_self p ps))
    have h2 := ih (fun q hq => hchoices q (List.mem_cons_of_mem p hq))
      (processLine jsonParse st ("data: " ++ p))
    simp only [List.foldl_cons]
    rw [h2, h1]
    cases hfu : frameUsage jsonParse p with
    | none => simp [List.filterMap_cons, hfu]
    | some t =>
      by_cases h0 : t = 0
      · simp [List.filterMap_cons, hfu, h0]
      · simp [List.filterMap_cons, hfu, h0, List.getLast?_cons]

/-- C11, as the claim states it, fails: of the frames with the usage totals 7 and
then 0, the last that carries a usage total carries 0, yet `sendStreamingRequest`
returns 7 tokens; and the body of the one frame with the usage total 7, delivered in
two chunks of which the first ends inside the frame (after its `data: `), returns 0
tokens. -/
theorem sendStreamingRequest_tokens_counterexample :
    (sendStreamingRequest (fun _ _ => .ok [sseBody [usageFrame, usageZeroFrame]] none)
        sampleParse "m" "hello").1
      = .ok { content := "No response generated", tokensUsed := 7 }
    ∧ [usageFrame, usageZeroFrame].filterMap (frameUsage sampleParse) = [7, 0]
    ∧ (([usageFrame, usageZeroFrame].filterMap (frameUsage sampleParse)).getLast?).getD 0
      ≠ 7
    ∧ (sendStreamingRequest (fun _ _ => .ok ["data: ", usageFrame ++ "\n"] none)
        sampleParse "m" "hello").1
      = .ok { content := "No response generated", tokensUsed := 0 }
    ∧ String.join ["data: ", usageFrame ++ "\n"] = sseBody [usageFrame]
    ∧ frameUsage sampleParse usageFrame = some 7 := by
  decide

/-- The frame without a `choices` field: its usage total 9 is not read, because
`parsed.choices[0]` throws before the usage is looked at; the count stays 0. -/
theorem sendStreamingRequest_usage_without_choices :
    (sendStreamingRequest (fun _ _ => .ok [sseBody [usageOnlyFrame]] none)
        sampleParse "m" "hello").1
      = .ok { content := "No response generated", tokensUsed := 0 }
    ∧ frameUsage sampleParse usageOnlyFrame = some 9 := by
  decide

/-- C11 (amended): for a streaming response made of frames `data: <payload>` each
ended by a newline (no newline inside a payload; the literal `[DONE]` is not JSON),
delivered in chunks that each hold whole frames, in which every frame that carries a
usage total has a `choices` field, the `tokensUsed` that
`sendStreamingRequest` returns is the `usage.total_tokens` of the last frame whose
payload carries a non-zero usage total, and 0 when no frame carries one. -/
theorem sendStreamingRequest_tokens (jsonParse : String → Option StreamPayload)
    (hDone : jsonParse "[DONE]" = none) (fetch : String → String → StreamFetch)
    (modelId prompt : String) (chunks : List (List String))
    (hnl : ∀ chunk ∈ chunks, ∀ p ∈ chunk, '\n' ∉ p.data)
    (hchoices : ∀ chunk ∈ chunks, ∀ p ∈ chunk, frameUsage jsonParse p ≠ none →
      (jsonParse p).all (fun parsed => parsed.choices.isSome) = true)
    (hfetch : fetch modelId prompt = .ok (chunks.map sseBody) none) :
    ∃ content, (sendStreamingRequest fetch jsonParse modelId prompt).1
      = .ok { content := content,
              tokensUsed := (((chunks.flatten.filterMap (frameUsage jsonParse)).filter
                (fun t => decide (t ≠ 0))).getLast?).getD 0 } := by
  have hnl2 : ∀ p ∈ chunks.flatten, '\n' ∉ p.data := by
    intro p hp
    rw [List.mem_flatten] at hp
    obtain ⟨chunk, hc, hpc⟩ := hp
    exact hnl chunk hc p hpc
  have hch2 : ∀ p ∈ chunks.flatten, frameUsage jsonParse p ≠ none →
      (jsonParse p).all (fun parsed => parsed.choices.isSome) = true := by
    intro p hp
    rw [List.mem_flatten] at hp
    obtain ⟨chunk, hc, hpc⟩ := hp
    exact hchoices chunk hc p hpc
  have hread : readStream jsonParse (chunks.map sseBody)
      = chunks.flatten.foldl (fun st p => processLine jsonParse st ("data: " ++ p)) {} := by
    rw [readStream_sseBody, foldl_split_of_no_newline jsonParse chunks.flatten hnl2]
  have htok := foldl_frames_tokens jsonParse hDone chunks.flatten hch2 {}
  rw [← hread] at htok
  simp only [sendStreamingRequest, hfetch]
  rw [htok]
  exact ⟨_, rfl⟩

/-- The amended C11 at the frames `a`, usage 7, usage 0 and `[DONE]`, one per chunk:
7 tokens. -/
theorem sendStreamingRequest_tokens_witness :
    ∃ content, (sendStreamingRequest
        (fun _ _ => .ok ([[deltaFrame "a"], [usageFrame], [usageZeroFrame], ["[DONE]"]].map
          sseBody) none)
        sampleParse "m" "hello").1
      = .ok { content := content, tokensUsed := 7 } :=
  sendStreamingRequest_tokens sampleParse (by decide)
    (fun _ _ => .ok ([[deltaFrame "a"], [usageFrame], [usageZeroFrame], ["[DONE]"]].map
      sseBody) none)
    "m" "hello" [[deltaFrame "a"], [usageFrame], [usageZeroFrame], ["[DONE]"]]
    (by decide) (by decide) rfl

/-! ## Model catalog fetcher -/

theorem updateSendButtonState_frame (a : App) :
    (updateSendButtonState a).models = a.models
    ∧ (updateSendButtonState a).filteredModels = a.filteredModels
    ∧ (updateSendButtonState a).selectedModels = a.selectedModels
    ∧ (updateSendButtonState a).errorMessage = a.errorMessage
    ∧ (updateSendButtonState a).errorHidden = a.errorHidden :=
  ⟨rfl, rfl, rfl, rfl, rfl⟩

/-- A successful fetch of a non-empty list replaces the catalog and the filtered view,
whether or not the rendering throws afterwards. -/
theorem loadModels_success_nonempty (selectorThrows : String → Bool)
    (fetch : String → CatalogFetch) (a : App)
    (l : List Model) (hkey : truthy (trim a.apiKeyInput) = true)
    (hfetch : fetch (trim a.apiKeyInput) = .ok (.ok (some l))) (hl : l ≠ []) :
    (loadModels selectorThrows fetch a).models = l
    ∧ (loadModels selectorThrows fetch a).filteredModels = l := by
  have hlen : ¬ l.length = 0 := fun h => hl (List.length_eq_zero.1 h)
  simp only [loadModels, hkey, hfetch, setLoading, updateSendButtonState, hideError,
    showError, renderModels, hlen, Option.getD_some, Bool.not_true, Bool.false_eq_true,
    if_false]
  split <;> exact ⟨rfl, rfl⟩

/-- C12 fails on the code for the empty list: with the catalog and the filtered view
holding `gpt-4`, a successful fetch that returns the empty list leaves the catalog
empty and the filtered view still holding `gpt-4`. -/
theorem loadModels_empty_catalog_stale_view :
    (loadModels sampleSelectorThrows (fun _ => .ok (.ok (some [])))
        { models := [{ id := "gpt-4" }], filteredModels := [{ id := "gpt-4" }],
          apiKeyInput := "k" }).models = []
    ∧ (loadModels sampleSelectorThrows (fun _ => .ok (.ok (some [])))
        { models := [{ id := "gpt-4" }], filteredModels := [{ id := "gpt-4" }],
          apiKeyInput := "k" }).filteredModels = [{ id := "gpt-4" }]
    ∧ (selectAllModels sampleSelectorThrows
        (loadModels sampleSelectorThrows (fun _ => .ok (.ok (some [])))
          { models := [{ id := "gpt-4" }], filteredModels := [{ id := "gpt-4" }],
            apiKeyInput := "k" })).selectedModels = ["gpt-4"] := by
  decide

/-- C13: when `loadModels` fails (the trimmed API key is blank, the fetch rejects,
the status is not 2xx, or the body does not parse) the catalog, the filtered view and
the selection are what they were before the call, and the failure is shown as an
error message; `loadModels` returns a state in every case. -/
theorem loadModels_failure (selectorThrows : String → Bool)
    (fetch : String → CatalogFetch) (a : App)
    (hfail : truthy (trim a.apiKeyInput) = false
      ∨ (∃ message, fetch (trim a.apiKeyInput) = .rejected message)
      ∨ (∃ status, fetch (trim a.apiKeyInput) = .notOk status)
      ∨ (∃ message, fetch (trim a.apiKeyInput) = .ok (.error message))) :
    (loadModels selectorThrows fetch a).models = a.models
    ∧ (loadModels selectorThrows fetch a).filteredModels = a.filteredModels
    ∧ (loadModels selectorThrows fetch a).selectedModels = a.selectedModels
    ∧ (loadModels selectorThrows fetch a).errorHidden = false
    ∧ ((loadModels selectorThrows fetch a).errorMessage
        = "Please enter your OpenRouter API key"
      ∨ (loadModels selectorThrows fetch a).errorMessage
        = "Failed to load models. Please check your API key and try again.") := by
  cases hkey : truthy (trim a.apiKeyInput) with
  | false =>
    simp [loadModels, hkey, showError]
  | true =>
    rcases hfail with h | ⟨m, h⟩ | ⟨s, h⟩ | ⟨m, h⟩
    · rw [hkey] at h
      exact absurd h (by decide)
    · simp [loadModels, hkey, h, setLoading, updateSendButtonState, showError]
    · simp [loadModels, hkey, h, setLoading, updateSendButtonState, showError]
    · simp [loadModels, hkey, h, setLoading, updateSendButtonState, showError]

/-- C13 at a blank API key and at a response with status 401, from a state with the
catalog, the view and the selection all holding `gpt-4`. -/
theorem loadModels_failure_witness :
    (loadModels sampleSelectorThrows (fun _ => .notOk 401)
        { models := [{ id := "gpt-4" }], filteredModels := [{ id := "gpt-4" }],
          selectedModels := ["gpt-4"], apiKeyInput := "  " }).filteredModels
      = [{ id := "gpt-4" }]
    ∧ (loadModels sampleSelectorThrows (fun _ => .notOk 401)
        { models := [{ id := "gpt-4" }], filteredModels := [{ id := "gpt-4" }],
          selectedModels := ["gpt-4"], apiKeyInput := "sk-1" }).selectedModels
      = ["gpt-4"] :=
  ⟨(loadModels_failure sampleSelectorThrows (fun _ => .notOk 401)
      { models := [{ id := "gpt-4" }], filteredModels := [{ id := "gpt-4" }],
        selectedModels := ["gpt-4"], apiKeyInput := "  " } (Or.inl (by decide))).2.1,
   (loadModels_failure sampleSelectorThrows (fun _ => .notOk 401)
      { models := [{ id := "gpt-4" }], filteredModels := [{ id := "gpt-4" }],
        selectedModels := ["gpt-4"], apiKeyInput := "sk-1" }
      (Or.inr (Or.inr (Or.inl ⟨401, rfl⟩)))).2.2.1⟩

/-! ## The send button -/

theorem length_pos_iff_ne_empty (s : String) : s.length > 0 ↔ s ≠ "" := by
  cases s with
  | mk l =>
    cases l with
    | nil => simp [String.length]
    | cons c cs =>
      simp only [String.length, List.length_cons, gt_iff_lt, Nat.zero_lt_succ, true_iff]
      intro h
      have h2 := congrArg String.data h
      simp at h2

theorem sendButtonRule_updateSendButtonState (a : App) :
    sendButtonRule (updateSendButtonState a) := by
  unfold sendButtonRule updateSendButtonState
  simp only [Bool.or_eq_true, Bool.not_eq_true', decide_eq_false_iff_not]
  rw [length_pos_iff_ne_empty]
  have hsel : ¬ a.selectedModels.length > 0 ↔ a.selectedModels = [] := by
    rw [gt_iff_lt, List.length_pos, not_not]
  rw [hsel, not_not, or_assoc]

theorem toggleModel_of_valid (selectorThrows : String → Bool) (a : App) (modelId : String)
    (selected : Bool) (hid : selectorThrows modelId = false) :
    toggleModel selectorThrows a modelId selected
      = updateSendButtonState
          (if selected then { a with selectedModels := setAdd a.selectedModels modelId }
           else { a with selectedModels := setDelete a.selectedModels modelId }) := by
  simp [toggleModel, updateModelOptionState, hid]

theorem selectAllModels_of_valid (selectorThrows : String → Bool) (a : App)
    (hview : ∀ m ∈ a.filteredModels, selectorThrows m.id = false) :
    ∃ b, selectAllModels selectorThrows a = updateSendButtonState b := by
  simp only [selectAllModels, selectAllLoop_of_valid _ _ _ hview, Bool.false_eq_true,
    if_false]
  exact ⟨_, rfl⟩

theorem clearAllModels_of_valid (selectorThrows : String → Bool) (a : App)
    (hview : ∀ m ∈ a.filteredModels, selectorThrows m.id = false) :
    ∃ b, clearAllModels selectorThrows a = updateSendButtonState b := by
  simp only [clearAllModels, clearAllLoop_of_valid _ _ _ hview, Bool.false_eq_true,
    if_false]
  exact ⟨_, rfl⟩

/-- When `querySelector` accepts the selectors of the identifiers involved, after
`toggleModel`, `removeSelectedModel`, `selectAllModels` and `clearAllModels`, and in
every case after a prompt input event and `setLoading`, the send button is disabled
exactly when the trimmed prompt is empty, or the selection is empty, or `isLoading`
holds; so after each of them an enabled button means a non-empty prompt and a
non-empty selection. -/
theorem sendButton_after_operations (selectorThrows : String → Bool) (a : App)
    (modelId value : String) (selected loading : Bool)
    (hid : selectorThrows modelId = false)
    (hview : ∀ m ∈ a.filteredModels, selectorThrows m.id = false) :
    (sendButtonRule (toggleModel selectorThrows a modelId selected)
      ∧ sendButtonRule (removeSelectedModel selectorThrows a modelId)
      ∧ sendButtonRule (selectAllModels selectorThrows a)
      ∧ sendButtonRule (clearAllModels selectorThrows a)
      ∧ sendButtonRule (promptInputEvent a value)
      ∧ sendButtonRule (setLoading a loading))
    ∧ ∀ b : App,
        (b = toggleModel selectorThrows a modelId selected
          ∨ b = removeSelectedModel selectorThrows a modelId
          ∨ b = selectAllModels selectorThrows a ∨ b = clearAllModels selectorThrows a
          ∨ b = promptInputEvent a value ∨ b = setLoading a loading) →
        b.sendPromptDisabled = false →
        trim b.promptInput ≠ "" ∧ b.selectedModels ≠ [] ∧ b.isLoading = false := by
  have hall : sendButtonRule (toggleModel selectorThrows a modelId selected)
      ∧ sendButtonRule (removeSelectedModel selectorThrows a modelId)
      ∧ sendButtonRule (selectAllModels selectorThrows a)
      ∧ sendButtonRule (clearAllModels selectorThrows a)
      ∧ sendButtonRule (promptInputEvent a value)
      ∧ sendButtonRule (setLoading a loading) := by
    refine ⟨?_, ?_, ?_, ?_, ?_, ?_⟩
    · rw [toggleModel_of_valid _ _ _ _ hid]
      exact sendButtonRule_updateSendButtonState _
    · unfold removeSelectedModel
      rw [toggleModel_of_valid _ _ _ _ hid]
      exact sendButtonRule_updateSendButtonState _
    · obtain ⟨b, hb⟩ := selectAllModels_of_valid selectorThrows a hview
      rw [hb]
      exact sendButtonRule_updateSendButtonState _
    · obtain ⟨b, hb⟩ := clearAllModels_of_valid selectorThrows a hview
      rw [hb]
      exact sendButtonRule_updateSendButtonState _
    · exact sendButtonRule_updateSendButtonState _
    · exact sendButtonRule_updateSendButtonState _
  refine ⟨hall, ?_⟩
  intro b hb hen
  have hrule : sendButtonRule b := by
    rcases hb with h | h | h | h | h | h <;> subst h
    · exact hall.1
    · exact hall.2.1
    · exact hall.2.2.1
    · exact hall.2.2.2.1
    · exact hall.2.2.2.2.1
    · exact hall.2.2.2.2.2
  unfold sendButtonRule at hrule
  have hnot : ¬ (trim b.promptInput = "" ∨ b.selectedModels = [] ∨ b.isLoading = true) := by
    intro h
    have := hrule.2 h
    rw [hen] at this
    exact absurd this (by decide)
  refine ⟨fun h => hnot (Or.inl h), fun h => hnot (Or.inr (Or.inl h)), ?_⟩
  cases hl : b.isLoading with
  | false => rfl
  | true => exact absurd (Or.inr (Or.inr hl)) hnot

/-- The state with the prompt `hi` and no selection: after `gpt-4` is toggled on the
button is enabled, and the prompt and the selection are then non-empty. -/
theorem sendButton_after_operations_witness :
    trim (toggleModel sampleSelectorThrows { promptInput := "hi" } "gpt-4"
      true).promptInput ≠ ""
    ∧ (toggleModel sampleSelectorThrows { promptInput := "hi" } "gpt-4"
      true).selectedModels ≠ []
    ∧ (toggleModel sampleSelectorThrows { promptInput := "hi" } "gpt-4"
      true).isLoading = false :=
  (sendButton_after_operations sampleSelectorThrows { promptInput := "hi" } "gpt-4" ""
      true false (by decide) (by decide)).2
    (toggleModel sampleSelectorThrows { promptInput := "hi" } "gpt-4" true) (Or.inl rfl)
    (by decide)

/-- C14 fails on the code: from the state with the view `a"b`, no selection, no prompt
and the button disabled, `selectAllModels()` selects `a"b` and throws before the
button is refreshed; the prompt input `hi` then enables the button; `clearAllModels()`
then empties the selection and throws before the button is refreshed: the button is
enabled while the selection is empty. -/
theorem sendButton_stale_after_throw :
    (clearAllModels sampleSelectorThrows
        (promptInputEvent
          (selectAllModels sampleSelectorThrows
            { filteredModels := [{ id := "a\"b" }], sendPromptDisabled := true })
          "hi")).selectedModels = []
    ∧ (clearAllModels sampleSelectorThrows
        (promptInputEvent
          (selectAllModels sampleSelectorThrows
            { filteredModels := [{ id := "a\"b" }], sendPromptDisabled := true })
          "hi")).sendPromptDisabled = false
    ∧ (selectAllModels sampleSelectorThrows
        { filteredModels := [{ id := "a\"b" }], promptInput := "hi",
          sendPromptDisabled := true }).selectedModels = ["a\"b"]
    ∧ (selectAllModels sampleSelectorThrows
        { filteredModels := [{ id := "a\"b" }], promptInput := "hi",
          sendPromptDisabled := true }).sendPromptDisabled = true
    ∧ (toggleModel sampleSelectorThrows
        { selectedModels := ["a\"b"], promptInput := "hi" } "a\"b"
        false).selectedModels = []
    ∧ (toggleModel sampleSelectorThrows
        { selectedModels := ["a\"b"], promptInput := "hi" } "a\"b"
        false).sendPromptDisabled = false := by
  decide

/-! ## Prompt dispatcher: chunks that end at a newline -/

theorem processChunk_empty (jsonParse : String → Option StreamPayload) (st : StreamState) :
    processChunk jsonParse st "" = st := by
  unfold processChunk
  rw [split_empty]
  simp [processLine_empty]

theorem processChunk_append_newline (jsonParse : String → Option StreamPayload)
    (st : StreamState) (x r : String) :
    processChunk jsonParse st (x ++ "\n" ++ r)
      = processChunk jsonParse ((split x '\n').foldl (processLine jsonParse) st) r := by
  unfold processChunk
  rw [split_append_newline, List.foldl_append]

theorem eq_append_newline_of_getLast (c : String) (h : c.data.getLast? = some '\n') :
    ∃ x : String, c = x ++ "\n" := by
  refine ⟨⟨c.data.dropLast⟩, ?_⟩
  apply String.ext
  have h2 := List.dropLast_append_getLast? '\n' (by simp [h] : '\n' ∈ c.data.getLast?)
  simp only [String.data_append]
  exact h2.symm

theorem foldl_processChunk_join (jsonParse : String → Option StreamPayload)
    (chunks : List String) (hend : ∀ c ∈ chunks, c.data.getLast? = some '\n')
    (st : StreamState) :
    chunks.foldl (processChunk jsonParse) st
      = processChunk jsonParse st (String.join chunks) := by
  induction chunks generalizing st with
  | nil =>
    have hj : String.join [] = "" := rfl
    rw [hj, processChunk_empty]
    rfl
  | cons c cs ih =>
    obtain ⟨x, hx⟩ := eq_append_newline_of_getLast c (hend c (List.mem_cons_self c cs))
    have hc : processChunk jsonParse st c
        = (split x '\n').foldl (processLine jsonParse) st := by
      have h := processChunk_append_newline jsonParse st x ""
      rw [String.append_empty, processChunk_empty] at h
      rw [hx]
      exact h
    simp only [List.foldl_cons]
    rw [ih (fun d hd => hend d (List.mem_cons_of_mem c hd)), join_cons, hc, hx,
      processChunk_append_newline]

/-- C15: each chunk is split into lines on its own and nothing is carried from one
chunk to the next: for every body and every division of it into chunks that each end
at a newline, `sendStreamingRequest` returns the content and token count, and
surfaces the updates, that it does for the whole body as one chunk. A frame cut in
two by a chunk boundary is lost: the frame `a` delivered as `data: ` and the rest
gives no content. -/
theorem sendStreamingRequest_chunking (jsonParse : String → Option StreamPayload)
    (modelId prompt : String) (chunks : List String)
    (hend : ∀ c ∈ chunks, c.data.getLast? = some '\n') :
    sendStreamingRequest (fun _ _ => .ok chunks none) jsonParse modelId prompt
      = sendStreamingRequest (fun _ _ => .ok [String.join chunks] none)
          jsonParse modelId prompt
    ∧ (String.join ["data: ", deltaFrame "a" ++ "\n"] = sseBody [deltaFrame "a"]
      ∧ sendStreamingRequest (fun _ _ => .ok ["data: ", deltaFrame "a" ++ "\n"] none)
          sampleParse "m" "hello"
        = (.ok { content := "No response generated", tokensUsed := 0 }, [])
      ∧ sendStreamingRequest (fun _ _ => .ok [sseBody [deltaFrame "a"]] none)
          sampleParse "m" "hello"
        = (.ok { content := "a", tokensUsed := 0 }, ["a"])) := by
  refine ⟨?_, by decide⟩
  have h : readStream jsonParse chunks = readStream jsonParse [String.join chunks] := by
    unfold readStream
    rw [foldl_processChunk_join jsonParse chunks hend]
    rfl
  simp only [sendStreamingRequest, h]

/-- C15 at the body of the frames `Hel`, `lo`, usage 7 and `[DONE]`, delivered as the
chunk of the first frame and the chunk of the other three. -/
theorem sendStreamingRequest_chunking_witness :
    sendStreamingRequest
        (fun _ _ => .ok [sseBody [deltaFrame "Hel"],
          sseBody [deltaFrame "lo", usageFrame, "[DONE]"]] none)
        sampleParse "m" "hello"
      = sendStreamingRequest
        (fun _ _ => .ok [String.join [sseBody [deltaFrame "Hel"],
          sseBody [deltaFrame "lo", usageFrame, "[DONE]"]]] none)
        sampleParse "m" "hello" :=
  (sendStreamingRequest_chunking sampleParse "m" "hello"
    [sseBody [deltaFrame "Hel"], sseBody [deltaFrame "lo", usageFrame, "[DONE]"]]
    (by decide)).1

end OpenRouter
